import Mathlib

/-!
Verification of the financial-calculator engine of this repository.

The JavaScript sources under `js/core`, `v1/js/core` and `v2/js/core` are
shallowly embedded here: JS numbers become `ℚ` (all the arithmetic the
embedded functions perform is field arithmetic and integer powers, which is
exact over `ℚ`), `null`-able values become `Option`, fallible functions
return `Except`, and `while` loops become fuel-based recursion where the
fuel is exactly the loop's own iteration bound (`month < maxMonths`,
`iterations < maxIterations`).  The one transcendental helper
(`estimateRemainingMonths`, which uses `Math.log`) is taken as a parameter
of the simulation, and `EMICalculator.calculateTenure`'s logarithm is
embedded with `Real.log`.
-/

namespace FinPlan

/-- Payoff strategies of the loan engine (`'REDUCE_TENURE' | 'REDUCE_EMI'`). -/
inductive Strategy
  | REDUCE_TENURE
  | REDUCE_EMI
deriving DecidableEq, Repr

/-! ## DataModels.js -/

/-- `InterestRatePeriod` from `js/core/DataModels.js`: `startMonth` is 1-indexed,
`rate` is an annual percentage, `endMonth = none` means "till end of loan". -/
structure InterestRatePeriod where
  startMonth : ℕ
  rate : ℚ
  endMonth : Option ℕ
deriving DecidableEq, Repr

/-- `InterestRatePeriod.isActiveForMonth`. -/
def InterestRatePeriod.isActiveForMonth (p : InterestRatePeriod) (month : ℕ) : Bool :=
  decide (p.startMonth ≤ month) &&
    (match p.endMonth with
     | none => true
     | some e => decide (month ≤ e))

/-- `MonthlyPrepayment` from `js/core/DataModels.js`. -/
structure MonthlyPrepayment where
  amount : ℚ
  startMonth : ℕ
  endMonth : Option ℕ
  strategy : Option Strategy
deriving DecidableEq, Repr

/-- `MonthlyPrepayment.isActiveForMonth`. -/
def MonthlyPrepayment.isActiveForMonth (p : MonthlyPrepayment) (month : ℕ) : Bool :=
  decide (p.startMonth ≤ month) &&
    (match p.endMonth with
     | none => true
     | some e => decide (month ≤ e))

/-- `YearlyPrepayment` from `js/core/DataModels.js`. -/
structure YearlyPrepayment where
  amount : ℚ
  targetMonth : ℕ
  startYear : ℕ
  endYear : Option ℕ
  strategy : Option Strategy
deriving DecidableEq, Repr

/-- `YearlyPrepayment.isActiveForMonth`: `yearOfLoan = ceil(month / 12)`,
`monthInYear = ((month - 1) % 12) + 1`. -/
def YearlyPrepayment.isActiveForMonth (p : YearlyPrepayment) (month : ℕ) : Bool :=
  let yearOfLoan := (month + 11) / 12
  let monthInYear := (month - 1) % 12 + 1
  decide (monthInYear = p.targetMonth) &&
    decide (p.startYear ≤ yearOfLoan) &&
    (match p.endYear with
     | none => true
     | some e => decide (yearOfLoan ≤ e))

/-- `OneTimePrepayment` from `js/core/DataModels.js`. -/
structure OneTimePrepayment where
  amount : ℚ
  month : ℕ
  strategy : Option Strategy
deriving DecidableEq, Repr

/-- `OneTimePrepayment.isActiveForMonth`. -/
def OneTimePrepayment.isActiveForMonth (p : OneTimePrepayment) (month : ℕ) : Bool :=
  decide (month = p.month)

/-- `LoanConfiguration` from `js/core/DataModels.js`.  The three prepayment
lists are the `prepaymentStrategy.{monthly,yearly,oneTime}` arrays. -/
structure LoanConfiguration where
  principal : ℚ
  baseTenureMonths : ℕ
  interestRateSchedule : List InterestRatePeriod
  monthly : List MonthlyPrepayment
  yearly : List YearlyPrepayment
  oneTime : List OneTimePrepayment
  defaultStrategy : Strategy
deriving DecidableEq, Repr

/-- Stable insertion of a period into a list sorted ascending by `startMonth`:
the new element goes after every element whose key is `≤` its own. -/
def insertByStartMonth (p : InterestRatePeriod) :
    List InterestRatePeriod → List InterestRatePeriod
  | [] => [p]
  | q :: rest =>
    if q.startMonth ≤ p.startMonth then q :: insertByStartMonth p rest
    else p :: q :: rest

/-- Stable sort ascending by `startMonth` (insertion sort), matching the
stable `Array.prototype.sort` with comparator `a.startMonth - b.startMonth`. -/
def sortByStartMonth (l : List InterestRatePeriod) : List InterestRatePeriod :=
  l.foldl (fun acc p => insertByStartMonth p acc) []

/-- `LoanConfiguration.addRatePeriod`: push then re-sort ascending by
`startMonth`. -/
def LoanConfiguration.addRatePeriod (cfg : LoanConfiguration)
    (startMonth : ℕ) (rate : ℚ) (endMonth : Option ℕ) : LoanConfiguration :=
  { cfg with interestRateSchedule :=
      sortByStartMonth (cfg.interestRateSchedule ++ [⟨startMonth, rate, endMonth⟩]) }

/-- `LoanConfiguration.getInterestRateForMonth`: scan the schedule in order,
overwriting the applicable rate with every active period, then fall back to
the first period's rate (or 0 when the schedule is empty). -/
def LoanConfiguration.getInterestRateForMonth (cfg : LoanConfiguration) (month : ℕ) : ℚ :=
  let applicableRate :=
    cfg.interestRateSchedule.foldl
      (fun acc p => if p.isActiveForMonth month then some p.rate else acc) none
  match applicableRate with
  | some r => r
  | none =>
    match cfg.interestRateSchedule with
    | [] => 0
    | p :: _ => p.rate

/-- `LoanConfiguration.validate`, returning the error list (the JS object's
`valid` field is `errors.length === 0`). -/
def LoanConfiguration.validateErrors (cfg : LoanConfiguration) : List String :=
  let e1 := if cfg.principal ≤ 0 then ["Principal must be greater than 0"] else []
  let e2 := if cfg.baseTenureMonths ≤ 0 then ["Tenure must be greater than 0"] else []
  let e3 := if cfg.interestRateSchedule.isEmpty
    then ["At least one interest rate period is required"] else []
  let rec overlaps : List InterestRatePeriod → List String
    | cur :: next :: rest =>
      (match cur.endMonth with
       | some e =>
         if next.startMonth ≤ e
         then ["Rate periods have explicit overlap at month " ++ toString next.startMonth]
         else []
       | none => []) ++ overlaps (next :: rest)
    | _ => []
  e1 ++ e2 ++ e3 ++ overlaps cfg.interestRateSchedule

/-- A configuration is valid when `validate()` reports no errors. -/
def LoanConfiguration.valid (cfg : LoanConfiguration) : Bool :=
  cfg.validateErrors.isEmpty

/-! ### Last-match-wins rate resolution (claim C1)

The specification-side reading of the rate lookup: the rate of the *last*
schedule entry whose range contains the month, with the first entry's rate
(or 0) as fallback. -/

/-- Modelled from the spec's words, for comparison with
`getInterestRateForMonth`: the rate of the last matching entry, else the
first entry's rate, else 0. -/
def specLastMatchRate (schedule : List InterestRatePeriod) (month : ℕ) : ℚ :=
  match (schedule.filter (fun p => p.isActiveForMonth month)).getLast? with
  | some p => p.rate
  | none =>
    match schedule with
    | [] => 0
    | p :: _ => p.rate

theorem foldl_lastMatch (l : List InterestRatePeriod) (month : ℕ) :
    ∀ init : Option ℚ,
      l.foldl (fun acc p => if p.isActiveForMonth month then some p.rate else acc) init =
        match (l.filter (fun p => p.isActiveForMonth month)).getLast? with
        | some p => some p.rate
        | none => init := by
  induction l with
  | nil => intro init; simp
  | cons p l ih =>
    intro init
    by_cases hp : p.isActiveForMonth month
    · rw [List.foldl_cons, if_pos hp, ih]
      have hfil : (p :: l).filter (fun q => q.isActiveForMonth month) =
          p :: l.filter (fun q => q.isActiveForMonth month) := by
        simp [List.filter_cons, hp]
      rw [hfil]
      cases h : l.filter (fun q => q.isActiveForMonth month) with
      | nil => simp
      | cons a as =>
        rw [List.getLast?_cons_cons]
        cases hl : (a :: as).getLast? with
        | none => simp at hl
        | some q => rfl
    · rw [List.foldl_cons, if_neg hp, ih]
      have hfil : (p :: l).filter (fun q => q.isActiveForMonth month) =
          l.filter (fun q => q.isActiveForMonth month) := by
        simp [List.filter_cons, hp]
      rw [hfil]

theorem getInterestRateForMonth_eq_spec (cfg : LoanConfiguration) (m : ℕ) :
    cfg.getInterestRateForMonth m = specLastMatchRate cfg.interestRateSchedule m := by
  unfold LoanConfiguration.getInterestRateForMonth specLastMatchRate
  rw [foldl_lastMatch]
  cases (cfg.interestRateSchedule.filter
      (fun p => p.isActiveForMonth m)).getLast? <;> rfl

/-- Claim C1: rate resolution is last-match-wins.  `getInterestRateForMonth m`
returns the rate of the last schedule entry whose `[startMonth, endMonth]`
range contains `m` (open-ended when `endMonth` is `none`), falling back to
the first entry's rate when nothing matches and to 0 for an empty schedule;
and for the schedule `[1,∞)@5` then `[6,12]@8` added in that order,
the rate at month 7 is 8, at month 1 is 5, and at month 13 is 5. -/
theorem rate_resolution_last_match_wins :
    (∀ (cfg : LoanConfiguration) (m : ℕ),
        cfg.getInterestRateForMonth m = specLastMatchRate cfg.interestRateSchedule m) ∧
    (let cfg0 : LoanConfiguration :=
        { principal := 1, baseTenureMonths := 1, interestRateSchedule := [],
          monthly := [], yearly := [], oneTime := [], defaultStrategy := .REDUCE_TENURE }
     let cfg := (cfg0.addRatePeriod 1 5 none).addRatePeriod 6 8 (some 12)
     cfg.getInterestRateForMonth 7 = 8 ∧
     cfg.getInterestRateForMonth 1 = 5 ∧
     cfg.getInterestRateForMonth 13 = 5) :=
  ⟨getInterestRateForMonth_eq_spec, by decide, by decide, by decide⟩

/-! ## v1/js/core/LoanCalculator.js -/

/-- The `{amount, type, strategy}` object built by
`AdvancedLoanCalculator.getPrepaymentForMonth` (the joined `type` string is
recovered by `PrepaymentInfo.typeLabel`). -/
structure PrepaymentInfo where
  amount : ℚ
  types : List String
  strategy : Option Strategy
deriving DecidableEq, Repr

/-- The `type` string of the source: contributing kind names joined with
`" + "`, or `"none"`. -/
def PrepaymentInfo.typeLabel (i : PrepaymentInfo) : String :=
  if i.types.isEmpty then "none" else String.intercalate " + " i.types

/-- One iteration of the three identical `forEach` blocks in
`getPrepaymentForMonth`: when the entry is active, add its amount, push its
kind label, and overwrite the strategy when the entry's override is non-null. -/
def prepStep {α : Type} (isActive : α → Bool) (amount : α → ℚ)
    (strat : α → Option Strategy) (label : String)
    (s : PrepaymentInfo) (prep : α) : PrepaymentInfo :=
  if isActive prep then
    ⟨s.amount + amount prep, s.types ++ [label],
     match strat prep with
     | some st => some st
     | none => s.strategy⟩
  else s

/-- `AdvancedLoanCalculator.getPrepaymentForMonth`: scan the monthly list,
then the yearly list, then the one-time list. -/
def LoanConfiguration.getPrepaymentForMonth (cfg : LoanConfiguration) (month : ℕ) :
    PrepaymentInfo :=
  let s1 := cfg.monthly.foldl
    (prepStep (fun p => p.isActiveForMonth month) (fun p => p.amount)
      (fun p => p.strategy) "monthly") ⟨0, [], none⟩
  let s2 := cfg.yearly.foldl
    (prepStep (fun p => p.isActiveForMonth month) (fun p => p.amount)
      (fun p => p.strategy) "yearly") s1
  cfg.oneTime.foldl
    (prepStep (fun p => p.isActiveForMonth month) (fun p => p.amount)
      (fun p => p.strategy) "lump-sum") s2

/-- `rate / 100 / 12`, the per-month rate used throughout the loan engine. -/
def monthlyRate (annualRate : ℚ) : ℚ :=
  annualRate / 100 / 12

namespace AdvancedLoanCalculator

/-- `AdvancedLoanCalculator.calculateEMI`: the closed-form annuity payment,
`P/n` at zero rate, `0` for non-positive principal or tenure. -/
def calculateEMI (principal annualRate : ℚ) (months : ℕ) : ℚ :=
  if principal ≤ 0 ∨ months = 0 then 0
  else
    let r := monthlyRate annualRate
    if r = 0 then principal / months
    else principal * r * (1 + r) ^ months / ((1 + r) ^ months - 1)

/-- `AdvancedLoanCalculator.calculateInitialEMI`: the EMI from the first
schedule entry's rate (the source indexes `schedule[0]`, which validation
guarantees to exist; an empty schedule is given rate 0 here). -/
def calculateInitialEMI (cfg : LoanConfiguration) : ℚ :=
  calculateEMI cfg.principal
    ((cfg.interestRateSchedule.head?.map InterestRatePeriod.rate).getD 0)
    cfg.baseTenureMonths

/-- `estimateRemainingMonths` computes
`ceil(log(EMI / (EMI - P*r)) / log(1+r))` with `Math.log` and clamps the
result into `[1, 2 * baseTenureMonths]`; being transcendental it is not
rational-arithmetic expressible, so the simulation takes it as a parameter
`(balance, annualRate, currentEMI) ↦ months`.  Every theorem below holds for
every such estimate. -/
def EmiEstimate : Type := ℚ → ℚ → ℚ → ℕ

/-- One row of `this.amortizationSchedule`.  `balanceBefore` and
`scheduledPrincipal` record the loop's local `balance` at the top of the
iteration and its local `principal` before the prepayment is added; they are
kept on the row so that invariants over the intermediate state can be
stated. -/
structure Row where
  month : ℕ
  balance : ℚ
  interest : ℚ
  principal : ℚ
  emi : ℚ
  prepayment : ℚ
  prepaymentType : String
  rate : ℚ
  strategy : Option Strategy
  balanceBefore : ℚ
  scheduledPrincipal : ℚ
deriving DecidableEq, Repr

/-- Result of one iteration of the `calculate` while-loop. -/
structure StepOut where
  balance : ℚ
  emi : ℚ
  row : Row
deriving DecidableEq, Repr

/-- The body of the `calculate` while-loop for month `m`, given the balance
and current EMI at the top of the iteration. -/
def calcStep (cfg : LoanConfiguration) (est : EmiEstimate) (m : ℕ)
    (balance emi : ℚ) : StepOut :=
  let currentRate := cfg.getInterestRateForMonth m
  let mr := monthlyRate currentRate
  let interest := balance * mr
  let principal0 := min (emi - interest) balance
  let principal1 := if principal0 < 0 then 0 else principal0
  let pinfo := cfg.getPrepaymentForMonth m
  let strategy := pinfo.strategy.getD cfg.defaultStrategy
  if 0 < pinfo.amount then
    let prepay := min pinfo.amount (balance - principal1)
    match strategy with
    | Strategy.REDUCE_EMI =>
      let principal2 := principal1 + prepay
      let newBalance := balance - principal2
      let emi1 :=
        if 1/100 < newBalance then
          let remainingMonths := est newBalance currentRate emi
          let e := calculateEMI newBalance currentRate remainingMonths
          let minEMI := newBalance * mr * (101/100)
          if e < minEMI then minEMI else e
        else 0
      let principal3 := if balance < principal2 then balance else principal2
      ⟨balance - principal3, emi1,
       ⟨m, max (balance - principal3) 0, interest, principal3, emi1, prepay,
        pinfo.typeLabel, currentRate,
        if 0 < prepay then some strategy else none, balance, principal1⟩⟩
    | Strategy.REDUCE_TENURE =>
      let principal2 := principal1 + prepay
      let principal3 := if balance < principal2 then balance else principal2
      ⟨balance - principal3, emi,
       ⟨m, max (balance - principal3) 0, interest, principal3, emi, prepay,
        pinfo.typeLabel, currentRate,
        if 0 < prepay then some strategy else none, balance, principal1⟩⟩
  else
    let principal3 := if balance < principal1 then balance else principal1
    ⟨balance - principal3, emi,
     ⟨m, max (balance - principal3) 0, interest, principal3, emi, pinfo.amount,
      pinfo.typeLabel, currentRate, none, balance, principal1⟩⟩

/-- What the `calculate` while-loop accumulates.  `finalBalance` is the
loop's local `balance` at exit (kept to state payoff conditions). -/
structure LoopOut where
  months : ℕ
  totalInterest : ℚ
  totalPrincipal : ℚ
  finalEMI : ℚ
  schedule : List Row
  finalBalance : ℚ
deriving DecidableEq, Repr

/-- The `calculate` while-loop: runs while `balance > 0.01` and
`month < maxMonths`; the fuel is `maxMonths - month`. -/
def calcLoop (cfg : LoanConfiguration) (est : EmiEstimate) :
    ℕ → ℕ → ℚ → ℚ → ℚ → ℚ → List Row → LoopOut
  | 0, month, balance, emi, ti, tp, rows => ⟨month, ti, tp, emi, rows.reverse, balance⟩
  | fuel + 1, month, balance, emi, ti, tp, rows =>
    if balance ≤ 1/100 then ⟨month, ti, tp, emi, rows.reverse, balance⟩
    else
      let m := month + 1
      let s := calcStep cfg est m balance emi
      calcLoop cfg est fuel m s.balance s.emi
        (ti + s.row.interest) (tp + s.row.principal) (s.row :: rows)

/-- Result of `calculateOriginalLoan` (the no-prepayment baseline), with the
loop's exit balance kept as `finalBalance`. -/
structure OriginalResult where
  months : ℕ
  totalInterest : ℚ
  finalBalance : ℚ
deriving DecidableEq, Repr

/-- The body of the `calculateOriginalLoan` while-loop for month `m`:
`(new balance, interest)` — the same interest/principal arithmetic as the
main loop, with no prepayment lookup. -/
def origStep (cfg : LoanConfiguration) (emi : ℚ) (m : ℕ) (b : ℚ) : ℚ × ℚ :=
  let mr := monthlyRate (cfg.getInterestRateForMonth m)
  let interest := b * mr
  let principal0 := min (emi - interest) b
  let principal := if principal0 < 0 then 0 else principal0
  (b - principal, interest)

/-- The `calculateOriginalLoan` while-loop: fixed EMI, safety cap as fuel. -/
def originalLoop (cfg : LoanConfiguration) (emi : ℚ) :
    ℕ → ℕ → ℚ → ℚ → OriginalResult
  | 0, month, balance, ti => ⟨month, ti, balance⟩
  | fuel + 1, month, balance, ti =>
    if balance ≤ 1/100 then ⟨month, ti, balance⟩
    else
      let s := origStep cfg emi (month + 1) balance
      originalLoop cfg emi fuel (month + 1) s.1 (ti + s.2)

/-- `AdvancedLoanCalculator.calculateOriginalLoan`: simulate the same
principal and rate schedule with no prepayments, safety cap `2 × tenure`. -/
def calculateOriginalLoan (cfg : LoanConfiguration) : OriginalResult :=
  originalLoop cfg (calculateInitialEMI cfg) (2 * cfg.baseTenureMonths) 0 cfg.principal 0

/-- `AdvancedLoanCalculator.calculateAverageRate`. -/
def calculateAverageRate (cfg : LoanConfiguration) (rows : List Row) : ℚ :=
  match rows with
  | [] => (cfg.interestRateSchedule.head?.map InterestRatePeriod.rate).getD 0
  | _ => (rows.map Row.rate).sum / rows.length

/-- The result object of `AdvancedLoanCalculator.calculate`. -/
structure CalculateResult where
  months : ℕ
  totalInterest : ℚ
  totalPrincipal : ℚ
  totalPayment : ℚ
  interestSaved : ℚ
  tenureReduced : ℤ
  originalEMI : ℚ
  finalEMI : ℚ
  originalMonths : ℕ
  originalTotalInterest : ℚ
  amortizationSchedule : List Row
  averageRate : ℚ
  finalBalance : ℚ
deriving DecidableEq, Repr

/-- `AdvancedLoanCalculator.calculate` after validation has passed: the main
simulation (safety cap `3 × tenure`) plus the baseline comparison. -/
def calculateRun (est : EmiEstimate) (cfg : LoanConfiguration) : CalculateResult :=
  let emi0 := calculateInitialEMI cfg
  let original := calculateOriginalLoan cfg
  let out := calcLoop cfg est (3 * cfg.baseTenureMonths) 0 cfg.principal emi0 0 0 []
  { months := out.months
    totalInterest := out.totalInterest
    totalPrincipal := out.totalPrincipal
    totalPayment := out.totalPrincipal + out.totalInterest
    interestSaved := max (original.totalInterest - out.totalInterest) 0
    tenureReduced := (original.months : ℤ) - (out.months : ℤ)
    originalEMI := emi0
    finalEMI := out.finalEMI
    originalMonths := original.months
    originalTotalInterest := original.totalInterest
    amortizationSchedule := out.schedule
    averageRate := calculateAverageRate cfg out.schedule
    finalBalance := out.finalBalance }

/-- `AdvancedLoanCalculator.calculate`: validation failure throws, otherwise
the simulation result is produced. -/
def calculate (est : EmiEstimate) (cfg : LoanConfiguration) :
    Except String CalculateResult :=
  if cfg.valid then Except.ok (calculateRun est cfg)
  else Except.error ("Invalid configuration: " ++
    String.intercalate ", " cfg.validateErrors)

end AdvancedLoanCalculator

/-! ### Prepayment lookup lemmas -/

theorem prepFold_amount_nonneg {α : Type} (isActive : α → Bool) (amount : α → ℚ)
    (strat : α → Option Strategy) (label : String) (l : List α)
    (h : ∀ a ∈ l, 0 ≤ amount a) :
    ∀ s : PrepaymentInfo, 0 ≤ s.amount →
      0 ≤ (l.foldl (prepStep isActive amount strat label) s).amount := by
  induction l with
  | nil => intro s hs; simpa using hs
  | cons a l ih =>
    intro s hs
    rw [List.foldl_cons]
    refine ih (fun b hb => h b (List.mem_cons_of_mem _ hb)) _ ?_
    unfold prepStep
    split
    · exact add_nonneg hs (h a (List.mem_cons_self a l))
    · exact hs

theorem getPrepaymentForMonth_amount_nonneg (cfg : LoanConfiguration) (m : ℕ)
    (hm : ∀ p ∈ cfg.monthly, 0 ≤ p.amount)
    (hy : ∀ p ∈ cfg.yearly, 0 ≤ p.amount)
    (ho : ∀ p ∈ cfg.oneTime, 0 ≤ p.amount) :
    0 ≤ (cfg.getPrepaymentForMonth m).amount := by
  unfold LoanConfiguration.getPrepaymentForMonth
  refine prepFold_amount_nonneg _ _ _ _ _ ho _ ?_
  refine prepFold_amount_nonneg _ _ _ _ _ hy _ ?_
  exact prepFold_amount_nonneg _ _ _ _ _ hm _ le_rfl

namespace AdvancedLoanCalculator

/-- The per-iteration facts needed for the cap invariant: the recorded
prepayment is nonnegative and bounded by `balance − scheduledPrincipal`, the
recorded `balanceBefore` is the incoming balance, and the balance stays
nonnegative. -/
theorem calcStep_invariant (cfg : LoanConfiguration) (est : EmiEstimate) (m : ℕ)
    (balance emi : ℚ) (hb : 0 ≤ balance)
    (hamt : 0 ≤ (cfg.getPrepaymentForMonth m).amount) :
    0 ≤ (calcStep cfg est m balance emi).row.prepayment ∧
    (calcStep cfg est m balance emi).row.prepayment ≤
      (calcStep cfg est m balance emi).row.balanceBefore -
        (calcStep cfg est m balance emi).row.scheduledPrincipal ∧
    0 ≤ (calcStep cfg est m balance emi).balance := by
  unfold calcStep
  set interest := balance * monthlyRate (cfg.getInterestRateForMonth m) with hi
  set principal0 := min (emi - interest) balance with hp0
  set principal1 := if principal0 < 0 then 0 else principal0 with hp1
  have hple : principal1 ≤ balance := by
    rw [hp1]; split
    · exact hb
    · exact min_le_right _ _
  have hpnn : 0 ≤ principal1 := by
    rw [hp1]; split
    · exact le_rfl
    · linarith
  by_cases hA : 0 < (cfg.getPrepaymentForMonth m).amount
  · rw [if_pos hA]
    set prepay := min (cfg.getPrepaymentForMonth m).amount (balance - principal1) with hpp
    have hpr0 : 0 ≤ prepay := le_min (le_of_lt hA) (by linarith)
    have hpr1 : prepay ≤ balance - principal1 := min_le_right _ _
    cases hs : (cfg.getPrepaymentForMonth m).strategy.getD cfg.defaultStrategy with
    | REDUCE_EMI =>
      refine ⟨hpr0, hpr1, ?_⟩
      show 0 ≤ balance - (if balance < principal1 + prepay then balance else principal1 + prepay)
      split <;> linarith
    | REDUCE_TENURE =>
      refine ⟨hpr0, hpr1, ?_⟩
      show 0 ≤ balance - (if balance < principal1 + prepay then balance else principal1 + prepay)
      split <;> linarith
  · rw [if_neg hA]
    have hz : (cfg.getPrepaymentForMonth m).amount = 0 := le_antisymm (not_lt.mp hA) hamt
    refine ⟨hamt, ?_, ?_⟩
    · show (cfg.getPrepaymentForMonth m).amount ≤ balance - principal1
      rw [hz]; linarith
    · show 0 ≤ balance - (if balance < principal1 then balance else principal1)
      split <;> linarith

theorem calcLoop_rows_invariant (cfg : LoanConfiguration) (est : EmiEstimate)
    (hamt : ∀ m, 0 ≤ (cfg.getPrepaymentForMonth m).amount) :
    ∀ (fuel month : ℕ) (balance emi ti tp : ℚ) (rows : List Row),
      0 ≤ balance →
      (∀ r ∈ rows, 0 ≤ r.prepayment ∧
        r.prepayment ≤ r.balanceBefore - r.scheduledPrincipal) →
      ∀ r ∈ (calcLoop cfg est fuel month balance emi ti tp rows).schedule,
        0 ≤ r.prepayment ∧ r.prepayment ≤ r.balanceBefore - r.scheduledPrincipal := by
  intro fuel
  induction fuel with
  | zero =>
    intro month balance emi ti tp rows _ hrows r hr
    rw [calcLoop] at hr
    exact hrows r (List.mem_reverse.mp hr)
  | succ fuel ih =>
    intro month balance emi ti tp rows hb hrows r hr
    rw [calcLoop] at hr
    by_cases hstop : balance ≤ 1/100
    · rw [if_pos hstop] at hr
      exact hrows r (List.mem_reverse.mp hr)
    · rw [if_neg hstop] at hr
      have hstep := calcStep_invariant cfg est (month + 1) balance emi hb (hamt _)
      refine ih _ _ _ _ _ _ hstep.2.2 ?_ r hr
      intro q hq
      rcases List.mem_cons.mp hq with hq | hq
      · subst hq; exact ⟨hstep.1, hstep.2.1⟩
      · exact hrows q hq

/-- Claim C2: prepayment cap invariant.  For every configuration whose
prepayment amounts are nonnegative (and nonnegative principal), every row of
the amortization ledger produced by `calculate` records a prepayment that is
nonnegative and at most the balance at the start of that month minus the
scheduled principal of that month — no month pays more principal than the
outstanding balance permits. -/
theorem prepayment_cap_invariant (est : EmiEstimate) (cfg : LoanConfiguration)
    (hm : ∀ p ∈ cfg.monthly, 0 ≤ p.amount)
    (hy : ∀ p ∈ cfg.yearly, 0 ≤ p.amount)
    (ho : ∀ p ∈ cfg.oneTime, 0 ≤ p.amount)
    (hP : 0 ≤ cfg.principal) :
    ∀ r ∈ (calculateRun est cfg).amortizationSchedule,
      0 ≤ r.prepayment ∧ r.prepayment ≤ r.balanceBefore - r.scheduledPrincipal := by
  intro r hr
  have hamt : ∀ m, 0 ≤ (cfg.getPrepaymentForMonth m).amount :=
    fun m => getPrepaymentForMonth_amount_nonneg cfg m hm hy ho
  exact calcLoop_rows_invariant cfg est hamt _ _ _ _ _ _ _ hP (by simp) r hr

/-- Witness for claim C2 at a concrete configuration: principal 100,000 over
24 months at 12% with a 5,000 monthly prepayment. -/
theorem prepayment_cap_invariant_witness :
    (let cfg : LoanConfiguration :=
      { principal := 100000, baseTenureMonths := 24,
        interestRateSchedule := [⟨1, 12, none⟩],
        monthly := [⟨5000, 1, none, none⟩], yearly := [], oneTime := [],
        defaultStrategy := .REDUCE_TENURE }
     ∀ r ∈ (calculateRun (fun _ _ _ => 1) cfg).amortizationSchedule,
       0 ≤ r.prepayment ∧ r.prepayment ≤ r.balanceBefore - r.scheduledPrincipal) :=
  prepayment_cap_invariant (fun _ _ _ => 1) _
    (by decide) (by decide) (by decide) (by decide)

end AdvancedLoanCalculator

/-! ### Zero-rate behaviour (claim C6) -/

/-- `EMICalculator._emi` from `v2/js/core/EMICalculator.js`: the same closed
form with the 0% guard checked on the raw annual rate. -/
def EMICalculator._emi (principal annualRate : ℚ) (months : ℕ) : ℚ :=
  if annualRate = 0 then principal / months
  else
    let r := monthlyRate annualRate
    let factor := (1 + r) ^ months
    principal * r * factor / (factor - 1)

theorem getInterestRateForMonth_eq_zero (cfg : LoanConfiguration)
    (h : ∀ p ∈ cfg.interestRateSchedule, p.rate = 0) (m : ℕ) :
    cfg.getInterestRateForMonth m = 0 := by
  rw [getInterestRateForMonth_eq_spec cfg m]
  unfold specLastMatchRate
  cases hl : (cfg.interestRateSchedule.filter
      (fun p => p.isActiveForMonth m)).getLast? with
  | some p =>
    exact h p (List.mem_of_mem_filter (List.mem_of_getLast?_eq_some hl))
  | none =>
    cases hs : cfg.interestRateSchedule with
    | nil => rfl
    | cons p rest => exact h p (by rw [hs]; exact List.mem_cons_self p rest)

theorem calcStep_row_interest (cfg : LoanConfiguration)
    (est : AdvancedLoanCalculator.EmiEstimate) (m : ℕ) (b e : ℚ) :
    (AdvancedLoanCalculator.calcStep cfg est m b e).row.interest =
      b * monthlyRate (cfg.getInterestRateForMonth m) := by
  unfold AdvancedLoanCalculator.calcStep
  dsimp only
  split
  · split <;> rfl
  · rfl

theorem calcLoop_totalInterest_of_zero_rates (cfg : LoanConfiguration)
    (est : AdvancedLoanCalculator.EmiEstimate)
    (h0 : ∀ m, cfg.getInterestRateForMonth m = 0) :
    ∀ (fuel month : ℕ) (b emi ti tp : ℚ) (rows : List AdvancedLoanCalculator.Row),
      (AdvancedLoanCalculator.calcLoop cfg est fuel month b emi ti tp rows).totalInterest
        = ti := by
  intro fuel
  induction fuel with
  | zero => intro month b emi ti tp rows; rw [AdvancedLoanCalculator.calcLoop]
  | succ fuel ih =>
    intro month b emi ti tp rows
    rw [AdvancedLoanCalculator.calcLoop]
    split
    · rfl
    · rw [ih, calcStep_row_interest, h0, show monthlyRate 0 = 0 by with_unfolding_all decide,
        mul_zero, add_zero]

/-- Claim C6: zero-rate payment correctness.  For positive principal and
tenure, the v1 and v2 EMI formulas at annual rate 0 both give exactly `P/n`,
and the full amortization simulation of any configuration whose rate
schedule is identically 0 accrues total interest 0. -/
theorem zero_rate_payment_correctness (P : ℚ) (n : ℕ) (hP : 0 < P) (hn : 0 < n) :
    AdvancedLoanCalculator.calculateEMI P 0 n = P / n ∧
    EMICalculator._emi P 0 n = P / n ∧
    (∀ (est : AdvancedLoanCalculator.EmiEstimate) (cfg : LoanConfiguration),
      (∀ p ∈ cfg.interestRateSchedule, p.rate = 0) →
      (AdvancedLoanCalculator.calculateRun est cfg).totalInterest = 0) := by
  refine ⟨?_, ?_, ?_⟩
  · unfold AdvancedLoanCalculator.calculateEMI
    have hcond : ¬(P ≤ 0 ∨ n = 0) := by
      push_neg
      exact ⟨hP, Nat.pos_iff_ne_zero.mp hn⟩
    rw [if_neg hcond, if_pos (show monthlyRate 0 = 0 by with_unfolding_all decide)]
  · unfold EMICalculator._emi
    rw [if_pos rfl]
  · intro est cfg h
    unfold AdvancedLoanCalculator.calculateRun
    exact calcLoop_totalInterest_of_zero_rates cfg est
      (getInterestRateForMonth_eq_zero cfg h) _ _ _ _ _ _ _

/-- Witness for claim C6 at principal 1200 over 12 months, with the
simulation run on the matching zero-rate configuration. -/
theorem zero_rate_payment_correctness_witness :
    (0 : ℚ) < 1200 ∧ 0 < 12 ∧
    AdvancedLoanCalculator.calculateEMI 1200 0 12 = 1200 / 12 ∧
    EMICalculator._emi 1200 0 12 = 1200 / 12 ∧
    (AdvancedLoanCalculator.calculateRun (fun _ _ _ => 1)
      { principal := 1200, baseTenureMonths := 12,
        interestRateSchedule := [⟨1, 0, none⟩],
        monthly := [], yearly := [], oneTime := [],
        defaultStrategy := .REDUCE_TENURE }).totalInterest = 0 :=
  ⟨by decide, by decide,
   (zero_rate_payment_correctness 1200 12 (by decide) (by decide)).1,
   (zero_rate_payment_correctness 1200 12 (by decide) (by decide)).2.1,
   (zero_rate_payment_correctness 1200 12 (by decide) (by decide)).2.2
     (fun _ _ _ => 1) _ (by decide)⟩

/-! ### Strategy override resolution (claim C10) -/

theorem prepFold_strategy {α : Type} (isActive : α → Bool) (amount : α → ℚ)
    (strat : α → Option Strategy) (label : String) (l : List α) :
    ∀ s : PrepaymentInfo,
      (l.foldl (prepStep isActive amount strat label) s).strategy =
        (((l.filter isActive).filterMap strat).getLast?).or s.strategy := by
  induction l with
  | nil => intro s; simp
  | cons a l ih =>
    intro s
    rw [List.foldl_cons, ih]
    by_cases ha : isActive a
    · rw [show (a :: l).filter isActive = a :: l.filter isActive by
        simp [List.filter_cons, ha]]
      rw [List.filterMap_cons]
      cases hsa : strat a with
      | none =>
        rw [show (prepStep isActive amount strat label s a).strategy = s.strategy by
          unfold prepStep; rw [if_pos ha, hsa]]
      | some st =>
        rw [show (prepStep isActive amount strat label s a).strategy = some st by
          unfold prepStep; rw [if_pos ha, hsa]]
        simp only [hsa]
        rw [show st :: (l.filter isActive).filterMap strat =
          [st] ++ (l.filter isActive).filterMap strat from rfl]
        rw [List.getLast?_append]
        cases ((l.filter isActive).filterMap strat).getLast? <;> rfl
    · rw [show (a :: l).filter isActive = l.filter isActive by
        simp [List.filter_cons, ha]]
      rw [show prepStep isActive amount strat label s a = s by
        unfold prepStep; rw [if_neg ha]]

/-- The strategy overrides among the monthly entries active in month `m`,
in list order. -/
def monthlyOverrides (cfg : LoanConfiguration) (m : ℕ) : List Strategy :=
  (cfg.monthly.filter (fun p => p.isActiveForMonth m)).filterMap
    MonthlyPrepayment.strategy

/-- The strategy overrides among the yearly entries active in month `m`. -/
def yearlyOverrides (cfg : LoanConfiguration) (m : ℕ) : List Strategy :=
  (cfg.yearly.filter (fun p => p.isActiveForMonth m)).filterMap
    YearlyPrepayment.strategy

/-- The strategy overrides among the one-time entries active in month `m`. -/
def oneTimeOverrides (cfg : LoanConfiguration) (m : ℕ) : List Strategy :=
  (cfg.oneTime.filter (fun p => p.isActiveForMonth m)).filterMap
    OneTimePrepayment.strategy

/-- All active overrides of month `m` in the scan order of
`getPrepaymentForMonth`: monthly first, then yearly, then one-time. -/
def activeOverrides (cfg : LoanConfiguration) (m : ℕ) : List Strategy :=
  monthlyOverrides cfg m ++ yearlyOverrides cfg m ++ oneTimeOverrides cfg m

theorem getPrepaymentForMonth_strategy_eq (cfg : LoanConfiguration) (m : ℕ) :
    (cfg.getPrepaymentForMonth m).strategy = (activeOverrides cfg m).getLast? := by
  unfold LoanConfiguration.getPrepaymentForMonth activeOverrides monthlyOverrides
    yearlyOverrides oneTimeOverrides
  rw [prepFold_strategy, prepFold_strategy, prepFold_strategy]
  simp [List.getLast?_append, Option.or_assoc]

/-- Claim C10: cross-kind override precedence.  The resolved strategy of a
month is the last non-null override in scan order (monthly list, then
yearly, then one-time); consequently whenever any active one-time entry
carries an override, the one-time list's last override wins over every
yearly and monthly override, and with no active one-time override an active
yearly override wins over every monthly one — independently of insertion
order within the other kinds. -/
theorem strategy_override_precedence :
    (∀ (cfg : LoanConfiguration) (m : ℕ),
        (cfg.getPrepaymentForMonth m).strategy = (activeOverrides cfg m).getLast?) ∧
    (∀ (cfg : LoanConfiguration) (m : ℕ), oneTimeOverrides cfg m ≠ [] →
        (cfg.getPrepaymentForMonth m).strategy = (oneTimeOverrides cfg m).getLast?) ∧
    (∀ (cfg : LoanConfiguration) (m : ℕ), oneTimeOverrides cfg m = [] →
        yearlyOverrides cfg m ≠ [] →
        (cfg.getPrepaymentForMonth m).strategy = (yearlyOverrides cfg m).getLast?) := by
  refine ⟨getPrepaymentForMonth_strategy_eq, ?_, ?_⟩
  · intro cfg m h
    rw [getPrepaymentForMonth_strategy_eq]
    unfold activeOverrides
    rw [List.getLast?_append]
    cases ho : (oneTimeOverrides cfg m).getLast? with
    | none => exact absurd (List.getLast?_eq_none_iff.mp ho) h
    | some st => rfl
  · intro cfg m ho h
    rw [getPrepaymentForMonth_strategy_eq]
    unfold activeOverrides
    rw [ho, List.append_nil, List.getLast?_append]
    cases hy : (yearlyOverrides cfg m).getLast? with
    | none => exact absurd (List.getLast?_eq_none_iff.mp hy) h
    | some st => rfl

/-- Witness for claim C10: an active monthly override `REDUCE_EMI` is beaten
by an active one-time override `REDUCE_TENURE`, and with no active one-time
override an active yearly override beats a monthly one. -/
theorem strategy_override_precedence_witness :
    (let cfgA : LoanConfiguration :=
      { principal := 1000, baseTenureMonths := 12,
        interestRateSchedule := [⟨1, 10, none⟩],
        monthly := [⟨100, 1, none, some .REDUCE_EMI⟩], yearly := [],
        oneTime := [⟨500, 5, some .REDUCE_TENURE⟩],
        defaultStrategy := .REDUCE_TENURE }
     oneTimeOverrides cfgA 5 ≠ [] ∧
       (cfgA.getPrepaymentForMonth 5).strategy = (oneTimeOverrides cfgA 5).getLast?) ∧
    (let cfgB : LoanConfiguration :=
      { principal := 1000, baseTenureMonths := 12,
        interestRateSchedule := [⟨1, 10, none⟩],
        monthly := [⟨100, 1, none, some .REDUCE_TENURE⟩],
        yearly := [⟨500, 12, 1, none, some .REDUCE_EMI⟩], oneTime := [],
        defaultStrategy := .REDUCE_TENURE }
     oneTimeOverrides cfgB 12 = [] ∧ yearlyOverrides cfgB 12 ≠ [] ∧
       (cfgB.getPrepaymentForMonth 12).strategy = (yearlyOverrides cfgB 12).getLast?) :=
  ⟨⟨by decide, strategy_override_precedence.2.1 _ 5 (by decide)⟩,
   ⟨by decide, by decide, strategy_override_precedence.2.2 _ 12 (by decide) (by decide)⟩⟩

/-! ### Baseline comparison (claim C3) -/

theorem monthlyRate_nonneg {r : ℚ} (h : 0 ≤ r) : 0 ≤ monthlyRate r := by
  unfold monthlyRate
  positivity

theorem getInterestRateForMonth_nonneg (cfg : LoanConfiguration)
    (h : ∀ p ∈ cfg.interestRateSchedule, 0 ≤ p.rate) (m : ℕ) :
    0 ≤ cfg.getInterestRateForMonth m := by
  rw [getInterestRateForMonth_eq_spec cfg m]
  unfold specLastMatchRate
  cases hl : (cfg.interestRateSchedule.filter
      (fun p => p.isActiveForMonth m)).getLast? with
  | some p =>
    exact h p (List.mem_of_mem_filter (List.mem_of_getLast?_eq_some hl))
  | none =>
    cases hs : cfg.interestRateSchedule with
    | nil => exact le_refl 0
    | cons p rest => exact h p (by rw [hs]; exact List.mem_cons_self p rest)

namespace AdvancedLoanCalculator

/-- Closed form for the baseline step's new balance: clamp the grown-and-paid
balance into `[0, b]`. -/
theorem origStep_fst_eq (cfg : LoanConfiguration) (emi : ℚ) (m : ℕ) (b : ℚ)
    (hb : 0 ≤ b) (hmr : 0 ≤ monthlyRate (cfg.getInterestRateForMonth m)) :
    (origStep cfg emi m b).1 =
      max (min b (b * (1 + monthlyRate (cfg.getInterestRateForMonth m)) - emi)) 0 := by
  unfold origStep
  dsimp only
  set mr := monthlyRate (cfg.getInterestRateForMonth m) with hmr'
  split
  · rename_i hneg
    have h1 : emi - b * mr < 0 := by
      rcases min_lt_iff.mp hneg with h | h
      · exact h
      · linarith
    have h2 : b ≤ b * (1 + mr) - emi := by nlinarith
    rw [min_eq_left h2, max_eq_left hb]
    ring
  · rename_i hpos
    push_neg at hpos
    rcases le_total (emi - b * mr) b with hle | hle
    · rw [min_eq_left hle]
      have h2 : 0 ≤ emi - b * mr := by
        have := min_eq_left hle
        rw [this] at hpos
        exact hpos
      have h3 : b * (1 + mr) - emi ≤ b := by nlinarith
      have h4 : 0 ≤ b * (1 + mr) - emi := by nlinarith
      rw [min_eq_right h3, max_eq_left h4]
      ring
    · rw [min_eq_right hle]
      have h2 : b * (1 + mr) - emi ≤ b := by nlinarith
      have h3 : min b (b * (1 + mr) - emi) ≤ 0 := by
        refine le_trans (min_le_right _ _) ?_
        nlinarith
      rw [max_eq_right h3]
      ring

theorem origStep_fst_nonneg (cfg : LoanConfiguration) (emi : ℚ) (m : ℕ) (b : ℚ)
    (hb : 0 ≤ b) (hmr : 0 ≤ monthlyRate (cfg.getInterestRateForMonth m)) :
    0 ≤ (origStep cfg emi m b).1 := by
  rw [origStep_fst_eq cfg emi m b hb hmr]
  exact le_max_right _ _

theorem origStep_fst_mono (cfg : LoanConfiguration) (emi : ℚ) (m : ℕ)
    (b b' : ℚ) (hb : 0 ≤ b) (hbb : b ≤ b')
    (hmr : 0 ≤ monthlyRate (cfg.getInterestRateForMonth m)) :
    (origStep cfg emi m b).1 ≤ (origStep cfg emi m b').1 := by
  rw [origStep_fst_eq cfg emi m b hb hmr,
    origStep_fst_eq cfg emi m b' (le_trans hb hbb) hmr]
  refine max_le_max (min_le_min hbb ?_) le_rfl
  nlinarith

theorem origStep_snd_eq (cfg : LoanConfiguration) (emi : ℚ) (m : ℕ) (b : ℚ) :
    (origStep cfg emi m b).2 = b * monthlyRate (cfg.getInterestRateForMonth m) := rfl

theorem originalLoop_months_ge (cfg : LoanConfiguration) (emi : ℚ) :
    ∀ (fuel month : ℕ) (b ti : ℚ),
      month ≤ (originalLoop cfg emi fuel month b ti).months := by
  intro fuel
  induction fuel with
  | zero => intro month b ti; rw [originalLoop]
  | succ fuel ih =>
    intro month b ti
    rw [originalLoop]
    split
    · exact le_rfl
    · exact le_trans (Nat.le_succ month) (ih (month + 1) _ _)

theorem originalLoop_ti_ge (cfg : LoanConfiguration) (emi : ℚ)
    (hmr : ∀ m, 0 ≤ monthlyRate (cfg.getInterestRateForMonth m)) :
    ∀ (fuel month : ℕ) (b ti : ℚ), 0 ≤ b →
      ti ≤ (originalLoop cfg emi fuel month b ti).totalInterest := by
  intro fuel
  induction fuel with
  | zero => intro month b ti _; rw [originalLoop]
  | succ fuel ih =>
    intro month b ti hb
    rw [originalLoop]
    split
    · exact le_rfl
    · refine le_trans ?_ (ih (month + 1) _ _
        (origStep_fst_nonneg cfg emi (month + 1) b hb (hmr _)))
      rw [origStep_snd_eq]
      nlinarith [mul_nonneg hb (hmr (month + 1))]

end AdvancedLoanCalculator

/-- When no prepayment entry of any kind carries a `REDUCE_EMI` override and
the default strategy is `REDUCE_TENURE`, every month resolves to
`REDUCE_TENURE`. -/
theorem resolved_strategy_RT (cfg : LoanConfiguration)
    (hd : cfg.defaultStrategy = Strategy.REDUCE_TENURE)
    (hm : ∀ p ∈ cfg.monthly, p.strategy ≠ some Strategy.REDUCE_EMI)
    (hy : ∀ p ∈ cfg.yearly, p.strategy ≠ some Strategy.REDUCE_EMI)
    (ho : ∀ p ∈ cfg.oneTime, p.strategy ≠ some Strategy.REDUCE_EMI) (m : ℕ) :
    (cfg.getPrepaymentForMonth m).strategy.getD cfg.defaultStrategy =
      Strategy.REDUCE_TENURE := by
  rw [getPrepaymentForMonth_strategy_eq]
  cases hl : (activeOverrides cfg m).getLast? with
  | none => simpa using hd
  | some st =>
    cases st with
    | REDUCE_TENURE => rfl
    | REDUCE_EMI =>
      exfalso
      have hmem := List.mem_of_getLast?_eq_some hl
      unfold activeOverrides monthlyOverrides yearlyOverrides oneTimeOverrides at hmem
      simp only [List.mem_append, List.mem_filterMap, List.mem_filter] at hmem
      rcases hmem with (⟨p, ⟨hp, _⟩, hps⟩ | ⟨p, ⟨hp, _⟩, hps⟩) | ⟨p, ⟨hp, _⟩, hps⟩
      · exact hm p hp hps
      · exact hy p hp hps
      · exact ho p hp hps

/-- A valid configuration has positive principal. -/
theorem valid_principal_pos (cfg : LoanConfiguration) (h : cfg.valid = true) :
    0 < cfg.principal := by
  by_contra hn
  push_neg at hn
  unfold LoanConfiguration.valid LoanConfiguration.validateErrors at h
  rw [if_pos hn] at h
  simp at h

namespace AdvancedLoanCalculator

/-- Under a `REDUCE_TENURE` resolution the loop never changes the EMI. -/
theorem calcStep_emi_of_RT (cfg : LoanConfiguration) (est : EmiEstimate)
    (m : ℕ) (b e : ℚ)
    (hstrat : (cfg.getPrepaymentForMonth m).strategy.getD cfg.defaultStrategy =
      Strategy.REDUCE_TENURE) :
    (calcStep cfg est m b e).emi = e := by
  unfold calcStep
  dsimp only
  rw [hstrat]
  split <;> rfl

/-- Under a `REDUCE_TENURE` resolution one main-loop step leaves at most the
baseline step's balance (the prepayment only removes extra principal). -/
theorem calcStep_balance_le_origStep (cfg : LoanConfiguration)
    (est : EmiEstimate) (m : ℕ) (b e : ℚ) (hb : 0 ≤ b)
    (hamt : 0 ≤ (cfg.getPrepaymentForMonth m).amount)
    (hstrat : (cfg.getPrepaymentForMonth m).strategy.getD cfg.defaultStrategy =
      Strategy.REDUCE_TENURE) :
    (calcStep cfg est m b e).balance ≤ (origStep cfg e m b).1 := by
  unfold calcStep origStep
  dsimp only
  rw [hstrat]
  set mr := monthlyRate (cfg.getInterestRateForMonth m) with hmr
  set interest := b * mr with hint
  set principal0 := min (e - interest) b with hp0
  set principal1 := if principal0 < 0 then 0 else principal0 with hp1
  have hple : principal1 ≤ b := by
    rw [hp1]; split
    · exact hb
    · exact min_le_right _ _
  have hpnn : 0 ≤ principal1 := by
    rw [hp1]; split
    · exact le_rfl
    · linarith
  by_cases hA : 0 < (cfg.getPrepaymentForMonth m).amount
  · rw [if_pos hA]
    set prepay := min (cfg.getPrepaymentForMonth m).amount (b - principal1) with hpp
    have hpr0 : 0 ≤ prepay := le_min (le_of_lt hA) (by linarith)
    show b - (if b < principal1 + prepay then b else principal1 + prepay) ≤
      b - principal1
    split <;> linarith
  · rw [if_neg hA]
    show b - (if b < principal1 then b else principal1) ≤ b - principal1
    split <;> linarith

/-- The main loop exits immediately once the balance is at most 0.01. -/
theorem calcLoop_exit (cfg : LoanConfiguration) (est : EmiEstimate)
    (fm month : ℕ) (b e ti tp : ℚ) (rows : List Row) (hb : b ≤ 1/100) :
    calcLoop cfg est fm month b e ti tp rows =
      ⟨month, ti, tp, e, rows.reverse, b⟩ := by
  cases fm with
  | zero => rw [calcLoop]
  | succ fm => rw [calcLoop, if_pos hb]

/-- Simulation: a `REDUCE_TENURE`-only main run whose balance starts at or
below the baseline's finishes no later and with no more interest, provided
the baseline run pays off within its own fuel. -/
theorem calcLoop_le_originalLoop (cfg : LoanConfiguration) (est : EmiEstimate)
    (hmr : ∀ m, 0 ≤ monthlyRate (cfg.getInterestRateForMonth m))
    (hstrat : ∀ m, (cfg.getPrepaymentForMonth m).strategy.getD cfg.defaultStrategy =
      Strategy.REDUCE_TENURE)
    (hamt : ∀ m, 0 ≤ (cfg.getPrepaymentForMonth m).amount) (E : ℚ) :
    ∀ (fb fm month : ℕ) (bb bm ti tim tp : ℚ) (rows : List Row),
      fb ≤ fm → 0 ≤ bm → bm ≤ bb → tim ≤ ti →
      (originalLoop cfg E fb month bb ti).finalBalance ≤ 1/100 →
      (calcLoop cfg est fm month bm E tim tp rows).months ≤
          (originalLoop cfg E fb month bb ti).months ∧
      (calcLoop cfg est fm month bm E tim tp rows).totalInterest ≤
          (originalLoop cfg E fb month bb ti).totalInterest := by
  intro fb
  induction fb with
  | zero =>
    intro fm month bb bm ti tim tp rows _ _ hbb hti hfin
    simp only [originalLoop] at hfin ⊢
    rw [calcLoop_exit cfg est fm month bm E tim tp rows (le_trans hbb hfin)]
    exact ⟨le_rfl, hti⟩
  | succ fb ih =>
    intro fm month bb bm ti tim tp rows hf hbm hbb hti hfin
    simp only [originalLoop] at hfin ⊢
    by_cases hbbs : bb ≤ 1/100
    · rw [if_pos hbbs] at hfin ⊢
      rw [calcLoop_exit cfg est fm month bm E tim tp rows (le_trans hbb hbbs)]
      exact ⟨le_rfl, hti⟩
    · rw [if_neg hbbs] at hfin ⊢
      have hbbpos : (0:ℚ) ≤ bb := le_trans hbm hbb
      by_cases hbms : bm ≤ 1/100
      · rw [calcLoop_exit cfg est fm month bm E tim tp rows hbms]
        constructor
        · exact le_trans (Nat.le_succ month)
            (originalLoop_months_ge cfg E fb (month + 1) _ _)
        · refine le_trans hti (le_trans ?_ (originalLoop_ti_ge cfg E hmr fb (month + 1) _ _
            (origStep_fst_nonneg cfg E (month + 1) bb hbbpos (hmr _))))
          rw [origStep_snd_eq]
          nlinarith [mul_nonneg hbbpos (hmr (month + 1))]
      · cases fm with
        | zero => exact absurd hf (by omega)
        | succ fm =>
          rw [calcLoop, if_neg hbms]
          dsimp only
          have hemi := calcStep_emi_of_RT cfg est (month + 1) bm E (hstrat _)
          rw [hemi]
          have hinv := calcStep_invariant cfg est (month + 1) bm E hbm (hamt _)
          have hle := calcStep_balance_le_origStep cfg est (month + 1) bm E hbm
            (hamt _) (hstrat _)
          have hmono := origStep_fst_mono cfg E (month + 1) bm bb hbm hbb (hmr _)
          have hint := calcStep_row_interest cfg est (month + 1) bm E
          refine ih fm (month + 1) (origStep cfg E (month + 1) bb).1
            (calcStep cfg est (month + 1) bm E).balance
            (ti + (origStep cfg E (month + 1) bb).2)
            (tim + (calcStep cfg est (month + 1) bm E).row.interest)
            (tp + (calcStep cfg est (month + 1) bm E).row.principal)
            ((calcStep cfg est (month + 1) bm E).row :: rows)
            (Nat.succ_le_succ_iff.mp hf) hinv.2.2 (le_trans hle hmono) ?_ hfin
          rw [hint, origStep_snd_eq]
          nlinarith [mul_le_mul_of_nonneg_right hbb (hmr (month + 1))]

set_option maxRecDepth 100000 in
/-- Claim C3 counterexample: a valid configuration (principal 100, tenure 2,
rate 0% in month 1 and 2400% thereafter, one 1-unit one-time prepayment in
month 1, `REDUCE_TENURE`) whose payment cannot cover interest from month 2
on.  The prepayment run hits its `3 × tenure` safety cap while the baseline
only runs to its `2 × tenure` cap, so `months > originalMonths` and
`totalInterest > originalTotalInterest` — the claimed monotonicity fails. -/
theorem baseline_monotonicity_counterexample :
    (let cfg : LoanConfiguration :=
      { principal := 100, baseTenureMonths := 2,
        interestRateSchedule := [⟨1, 0, some 1⟩, ⟨2, 2400, none⟩],
        monthly := [], yearly := [], oneTime := [⟨1, 1, none⟩],
        defaultStrategy := .REDUCE_TENURE }
     cfg.valid = true ∧ cfg.oneTime ≠ [] ∧
     (calculateRun (fun _ _ _ => 1) cfg).months = 6 ∧
     (calculateRun (fun _ _ _ => 1) cfg).originalMonths = 4 ∧
     (calculateRun (fun _ _ _ => 1) cfg).totalInterest = 490 ∧
     (calculateRun (fun _ _ _ => 1) cfg).originalTotalInterest = 300) := by
  with_unfolding_all decide

/-- Claim C3, amended.  The general statement fails when the payment cannot
amortize the loan (the counterexample above exploits the main loop's larger
safety cap); it holds whenever the baseline run
actually pays off within its own cap, for configurations that resolve every
prepayment to `REDUCE_TENURE` (nonnegative rates and prepayment amounts):
then the simulation with prepayments satisfies `months ≤ originalMonths` and
`totalInterest ≤ originalTotalInterest`. -/
theorem baseline_monotonicity_reduce_tenure (est : EmiEstimate)
    (cfg : LoanConfiguration)
    (hvalid : cfg.valid = true)
    (hprep : cfg.monthly ≠ [] ∨ cfg.yearly ≠ [] ∨ cfg.oneTime ≠ [])
    (hr : ∀ p ∈ cfg.interestRateSchedule, 0 ≤ p.rate)
    (hm : ∀ p ∈ cfg.monthly, 0 ≤ p.amount)
    (hy : ∀ p ∈ cfg.yearly, 0 ≤ p.amount)
    (ho : ∀ p ∈ cfg.oneTime, 0 ≤ p.amount)
    (hms : ∀ p ∈ cfg.monthly, p.strategy ≠ some Strategy.REDUCE_EMI)
    (hys : ∀ p ∈ cfg.yearly, p.strategy ≠ some Strategy.REDUCE_EMI)
    (hos : ∀ p ∈ cfg.oneTime, p.strategy ≠ some Strategy.REDUCE_EMI)
    (hd : cfg.defaultStrategy = Strategy.REDUCE_TENURE)
    (hpayoff : (calculateOriginalLoan cfg).finalBalance ≤ 1/100) :
    (calculateRun est cfg).months ≤ (calculateRun est cfg).originalMonths ∧
    (calculateRun est cfg).totalInterest ≤
      (calculateRun est cfg).originalTotalInterest := by
  have hP : 0 ≤ cfg.principal := le_of_lt (valid_principal_pos cfg hvalid)
  have hmr : ∀ m, 0 ≤ monthlyRate (cfg.getInterestRateForMonth m) :=
    fun m => monthlyRate_nonneg (getInterestRateForMonth_nonneg cfg hr m)
  have hstrat := resolved_strategy_RT cfg hd hms hys hos
  have hamt : ∀ m, 0 ≤ (cfg.getPrepaymentForMonth m).amount :=
    fun m => getPrepaymentForMonth_amount_nonneg cfg m hm hy ho
  unfold calculateOriginalLoan at hpayoff
  have := calcLoop_le_originalLoop cfg est hmr hstrat hamt
    (calculateInitialEMI cfg) (2 * cfg.baseTenureMonths)
    (3 * cfg.baseTenureMonths) 0 cfg.principal cfg.principal 0 0 0 []
    (by omega) hP le_rfl le_rfl hpayoff
  exact this

/-- Witness for the amended claim C3: principal 1200 over 12 months at 0%,
with a 50/month recurring prepayment under `REDUCE_TENURE`. -/
theorem baseline_monotonicity_reduce_tenure_witness :
    (let cfg : LoanConfiguration :=
      { principal := 1200, baseTenureMonths := 12,
        interestRateSchedule := [⟨1, 0, none⟩],
        monthly := [⟨50, 1, none, none⟩], yearly := [], oneTime := [],
        defaultStrategy := .REDUCE_TENURE }
     (calculateRun (fun _ _ _ => 1) cfg).months ≤
       (calculateRun (fun _ _ _ => 1) cfg).originalMonths ∧
     (calculateRun (fun _ _ _ => 1) cfg).totalInterest ≤
       (calculateRun (fun _ _ _ => 1) cfg).originalTotalInterest) :=
  baseline_monotonicity_reduce_tenure (fun _ _ _ => 1) _
    (by with_unfolding_all decide) (Or.inl (by decide))
    (by decide) (by decide) (by decide) (by decide)
    (by decide) (by decide) (by decide) rfl
    (by with_unfolding_all decide)

end AdvancedLoanCalculator

/-! ## js/core/GoalSeeker.js -/

namespace GoalSeekingSIPCalculator

/-- `calculateFutureValue`: the closed-form SIP future value
`P * [(1+r)^n - 1] / r * (1+r)` with `r = annualReturn/100/12`,
`n = years*12`, and `P*n` at zero rate. -/
def calculateFutureValue (monthlySIP : ℚ) (years : ℕ) (annualReturn : ℚ) : ℚ :=
  let months := years * 12
  let r := annualReturn / 100 / 12
  if r = 0 then monthlySIP * months
  else monthlySIP * (((1 + r) ^ months - 1) / r) * (1 + r)

/-- The `newtonRaphsonMethod` while-loop.  The fuel is
`maxIterations - iterations` (100 at entry); the `Bool` reports whether the
iteration budget was exhausted (`iterations >= maxIterations` after the
loop).  The convergence return and the near-zero-derivative `break` both
leave `iterations < maxIterations`. -/
def nrLoop (targetAmount : ℚ) (years : ℕ) (annualReturn : ℚ) :
    ℕ → ℚ → ℚ × Bool
  | 0, sip => (sip, true)
  | fuel + 1, sip =>
    let fv := calculateFutureValue sip years annualReturn
    let error := fv - targetAmount
    if |error| < 100 then (sip, false)
    else
      let fvPlusDelta := calculateFutureValue (sip + 1) years annualReturn
      let derivative := (fvPlusDelta - fv) / 1
      if |derivative| < 1/1000 then (sip, false)
      else
        let sip1 := sip - error / derivative
        nrLoop targetAmount years annualReturn fuel
          (if sip1 < 100 then 100 else sip1)

/-- The `binarySearchMethod` while-loop over `[low, high]`: runs while the
iteration budget lasts and `high - low > 1`. -/
def binarySearchLoop (targetAmount : ℚ) (years : ℕ) (annualReturn : ℚ) :
    ℕ → ℚ → ℚ → ℚ
  | 0, low, high => (low + high) / 2
  | fuel + 1, low, high =>
    if 1 < high - low then
      let mid := (low + high) / 2
      let fv := calculateFutureValue mid years annualReturn
      if |fv - targetAmount| < 100 then mid
      else if fv < targetAmount then
        binarySearchLoop targetAmount years annualReturn fuel mid high
      else
        binarySearchLoop targetAmount years annualReturn fuel low mid
    else (low + high) / 2

/-- `binarySearchMethod`: bisection over `[100, target/12]`. -/
def binarySearchMethod (targetAmount : ℚ) (years : ℕ) (annualReturn : ℚ) : ℚ :=
  binarySearchLoop targetAmount years annualReturn 100 100 (targetAmount / 12)

/-- `newtonRaphsonMethod`: Newton-Raphson from the initial guess
`target/(years*12)`; falls back to `binarySearchMethod` only when the loop
exhausted its 100 iterations. -/
def newtonRaphsonMethod (targetAmount : ℚ) (years : ℕ) (annualReturn : ℚ) : ℚ :=
  let out := nrLoop targetAmount years annualReturn 100
    (targetAmount / ((years : ℚ) * 12))
  if out.2 then binarySearchMethod targetAmount years annualReturn else out.1

/-- The inner 12-month loop of `calculateStepUpFutureValue`:
`totalAmount = (totalAmount + currentSIP) * (1 + monthlyReturn)`. -/
def stepUpMonths (monthlyReturn currentSIP : ℚ) : ℕ → ℚ → ℚ
  | 0, total => total
  | k + 1, total =>
    stepUpMonths monthlyReturn currentSIP k ((total + currentSIP) * (1 + monthlyReturn))

/-- The outer year loop of `calculateStepUpFutureValue`; `yearsLeft > 1`
corresponds to the source's `year < years` (no step-up after the last year). -/
def stepUpYears (monthlyReturn stepUpPercent : ℚ) : ℕ → ℚ → ℚ → ℚ
  | 0, _, total => total
  | y + 1, sip, total =>
    let total1 := stepUpMonths monthlyReturn sip 12 total
    stepUpYears monthlyReturn stepUpPercent y
      (if 0 < y then sip * (1 + stepUpPercent / 100) else sip) total1

/-- `calculateStepUpFutureValue`. -/
def calculateStepUpFutureValue (initialSIP : ℚ) (years : ℕ)
    (annualReturn stepUpPercent : ℚ) : ℚ :=
  stepUpYears (annualReturn / 100 / 12) stepUpPercent years initialSIP 0

/-- The `calculateStepUpSIP` while-loop (bisection over the step-up FV). -/
def stepUpSearchLoop (targetAmount : ℚ) (years : ℕ)
    (annualReturn stepUpPercent : ℚ) : ℕ → ℚ → ℚ → ℚ
  | 0, low, high => (low + high) / 2
  | fuel + 1, low, high =>
    if 1 < high - low then
      let mid := (low + high) / 2
      let fv := calculateStepUpFutureValue mid years annualReturn stepUpPercent
      if |fv - targetAmount| < 100 then mid
      else if fv < targetAmount then
        stepUpSearchLoop targetAmount years annualReturn stepUpPercent fuel mid high
      else
        stepUpSearchLoop targetAmount years annualReturn stepUpPercent fuel low mid
    else (low + high) / 2

/-- `calculateStepUpSIP`. -/
def calculateStepUpSIP (targetAmount : ℚ) (years : ℕ)
    (annualReturn stepUpPercent : ℚ) : ℚ :=
  stepUpSearchLoop targetAmount years annualReturn stepUpPercent 100 100
    (targetAmount / 12)

/-- The year loop of `calculateStepUpTotalInvestment`. -/
def stepUpInvestYears (stepUpPercent : ℚ) : ℕ → ℚ → ℚ → ℚ
  | 0, _, total => total
  | y + 1, sip, total =>
    stepUpInvestYears stepUpPercent y
      (if 0 < y then sip * (1 + stepUpPercent / 100) else sip) (total + sip * 12)

/-- `calculateStepUpTotalInvestment`. -/
def calculateStepUpTotalInvestment (initialSIP : ℚ) (years : ℕ)
    (stepUpPercent : ℚ) : ℚ :=
  stepUpInvestYears stepUpPercent years initialSIP 0

/-- The result object of `calculateRequiredSIP`. -/
structure RequiredSIPResult where
  success : Bool
  requiredSIP : ℚ
  targetAmount : ℚ
  inflationAdjustedTarget : ℚ
  achievedAmount : ℚ
  totalInvestment : ℚ
  wealthGain : ℚ
  realValue : ℚ
  years : ℕ
  annualReturn : ℚ
  inflationRate : ℚ
  stepUpPercent : ℚ
deriving DecidableEq, Repr

/-- `calculateRequiredSIP`: inflate the target, solve (Newton-Raphson
without step-up, bisection with), report the solved SIP rounded *up* to the
nearest 100 while the achieved/total/real figures use the unrounded SIP.
`success` is unconditionally `true`. -/
def calculateRequiredSIP (targetAmount : ℚ) (years : ℕ)
    (annualReturn : ℚ) (inflationRate : ℚ) (stepUpPercent : ℚ) :
    RequiredSIPResult :=
  let inflationAdjustedTarget :=
    if 0 < inflationRate then targetAmount * (1 + inflationRate / 100) ^ years
    else targetAmount
  let requiredSIP :=
    if 0 < stepUpPercent then
      calculateStepUpSIP inflationAdjustedTarget years annualReturn stepUpPercent
    else newtonRaphsonMethod inflationAdjustedTarget years annualReturn
  let achievedAmount :=
    if 0 < stepUpPercent then
      calculateStepUpFutureValue requiredSIP years annualReturn stepUpPercent
    else calculateFutureValue requiredSIP years annualReturn
  let totalInvestment :=
    if 0 < stepUpPercent then
      calculateStepUpTotalInvestment requiredSIP years stepUpPercent
    else requiredSIP * years * 12
  let realValue :=
    if 0 < inflationRate then
      achievedAmount / (1 + inflationRate / 100) ^ years
    else achievedAmount
  { success := true
    requiredSIP := ((⌈requiredSIP / 100⌉ : ℤ) : ℚ) * 100
    targetAmount := targetAmount
    inflationAdjustedTarget := inflationAdjustedTarget
    achievedAmount := achievedAmount
    totalInvestment := totalInvestment
    wealthGain := achievedAmount - totalInvestment
    realValue := realValue
    years := years
    annualReturn := annualReturn
    inflationRate := inflationRate
    stepUpPercent := stepUpPercent }

/-- The future value of a 1-unit SIP; `calculateFutureValue` is linear in
the contribution with this factor. -/
def fvFactor (years : ℕ) (annualReturn : ℚ) : ℚ :=
  calculateFutureValue 1 years annualReturn

theorem calculateFutureValue_eq_mul (s : ℚ) (y : ℕ) (r : ℚ) :
    calculateFutureValue s y r = s * fvFactor y r := by
  unfold fvFactor calculateFutureValue
  dsimp only
  split
  · ring
  · ring

theorem fvFactor_ge_months (y : ℕ) (r : ℚ) (hr : 0 ≤ r) :
    ((y : ℚ) * 12) ≤ fvFactor y r := by
  unfold fvFactor calculateFutureValue
  dsimp only
  set r' := r / 100 / 12 with hr'
  have hr0 : 0 ≤ r' := by positivity
  split
  · push_cast
    ring_nf
    exact le_rfl
  · rename_i h
    have hrpos : 0 < r' := lt_of_le_of_ne hr0 (Ne.symm h)
    have hpow : 1 + ((y * 12 : ℕ) : ℚ) * r' ≤ (1 + r') ^ (y * 12) :=
      one_add_mul_le_pow (by linarith) (y * 12)
    have h1 : ((y * 12 : ℕ) : ℚ) ≤ ((1 + r') ^ (y * 12) - 1) / r' := by
      rw [le_div_iff hrpos]
      linarith
    have h0 : (0 : ℚ) ≤ ((1 + r') ^ (y * 12) - 1) / r' := by
      refine le_trans ?_ h1
      positivity
    have hcast : ((y * 12 : ℕ) : ℚ) = (y : ℚ) * 12 := by push_cast; ring
    nlinarith [mul_nonneg h0 hr0]

theorem fvFactor_ge_twelve (y : ℕ) (r : ℚ) (hy : 1 ≤ y) (hr : 0 ≤ r) :
    (12 : ℚ) ≤ fvFactor y r := by
  have h1 : (1 : ℚ) ≤ (y : ℚ) := by exact_mod_cast hy
  have := fvFactor_ge_months y r hr
  nlinarith

theorem nrLoop_step_converged (t : ℚ) (y : ℕ) (r : ℚ) (fuel : ℕ) (s : ℚ)
    (h : |calculateFutureValue s y r - t| < 100) :
    nrLoop t y r (fuel + 1) s = (s, false) := by
  rw [nrLoop]
  dsimp only
  rw [if_pos h]

/-- With a nonnegative return the finite-difference derivative equals the
(at least 12) FV factor, so the near-zero-derivative `break` is unreachable:
a non-exhausted exit of the Newton-Raphson loop is a converged one. -/
theorem nrLoop_false_converged (t : ℚ) (y : ℕ) (r : ℚ) (hy : 1 ≤ y) (hr : 0 ≤ r) :
    ∀ (fuel : ℕ) (sip : ℚ), (nrLoop t y r fuel sip).2 = false →
      |calculateFutureValue (nrLoop t y r fuel sip).1 y r - t| < 100 := by
  intro fuel
  induction fuel with
  | zero =>
    intro sip h
    rw [nrLoop] at h
    simp at h
  | succ fuel ih =>
    intro sip h
    rw [nrLoop] at h ⊢
    dsimp only at h ⊢
    by_cases hc : |calculateFutureValue sip y r - t| < 100
    · rw [if_pos hc] at h ⊢
      exact hc
    · rw [if_neg hc] at h ⊢
      have hderiv : (calculateFutureValue (sip + 1) y r -
          calculateFutureValue sip y r) / 1 = fvFactor y r := by
        rw [calculateFutureValue_eq_mul, calculateFutureValue_eq_mul]
        ring
      have h12 := fvFactor_ge_twelve y r hy hr
      have habs : ¬ |(calculateFutureValue (sip + 1) y r -
          calculateFutureValue sip y r) / 1| < 1/1000 := by
        rw [hderiv, not_lt, abs_of_nonneg (by linarith)]
        linarith
      rw [if_neg habs] at h ⊢
      exact ih _ h

/-- When the floor at 100 does not bind (`target ≥ 100 × fvFactor`), the
Newton step lands exactly on `target/fvFactor` (the FV is linear) and the
loop converges on the next iteration — it never exhausts its budget. -/
theorem nrLoop_converges_of_large_target (t : ℚ) (y : ℕ) (r : ℚ)
    (hy : 1 ≤ y) (hr : 0 ≤ r) (ht : 100 * fvFactor y r ≤ t) :
    ∀ (fuel : ℕ) (sip : ℚ), 2 ≤ fuel →
      (nrLoop t y r fuel sip).2 = false ∧
      |calculateFutureValue (nrLoop t y r fuel sip).1 y r - t| < 100 := by
  have h12 := fvFactor_ge_twelve y r hy hr
  have hApos : (0 : ℚ) < fvFactor y r := by linarith
  intro fuel sip hf
  obtain ⟨f, rfl⟩ : ∃ f, fuel = f + 2 := ⟨fuel - 2, by omega⟩
  rw [nrLoop]
  dsimp only
  by_cases hc : |calculateFutureValue sip y r - t| < 100
  · rw [if_pos hc]
    exact ⟨rfl, hc⟩
  · rw [if_neg hc]
    have hderiv : (calculateFutureValue (sip + 1) y r -
        calculateFutureValue sip y r) / 1 = fvFactor y r := by
      rw [calculateFutureValue_eq_mul, calculateFutureValue_eq_mul]
      ring
    have habs : ¬ |(calculateFutureValue (sip + 1) y r -
        calculateFutureValue sip y r) / 1| < 1/1000 := by
      rw [hderiv, not_lt, abs_of_nonneg (by linarith)]
      linarith
    rw [if_neg habs]
    have hstep : sip - (calculateFutureValue sip y r - t) /
        ((calculateFutureValue (sip + 1) y r - calculateFutureValue sip y r) / 1) =
        t / fvFactor y r := by
      rw [hderiv, calculateFutureValue_eq_mul]
      field_simp
    rw [hstep]
    have hge : ¬ t / fvFactor y r < 100 := by
      rw [not_lt, le_div_iff hApos]
      linarith
    rw [if_neg hge]
    have hsol : |calculateFutureValue (t / fvFactor y r) y r - t| < 100 := by
      rw [calculateFutureValue_eq_mul, div_mul_cancel₀ _ (ne_of_gt hApos)]
      simp
    rw [nrLoop_step_converged t y r f _ hsol]
    exact ⟨rfl, hsol⟩

/-- Every bound the bisection loop returns stays strictly below `high`
whenever `low < high` (both the mid returns and the final `(low+high)/2`). -/
theorem binarySearchLoop_lt_high (t : ℚ) (y : ℕ) (r : ℚ) :
    ∀ (fuel : ℕ) (low high : ℚ), low < high →
      binarySearchLoop t y r fuel low high < high := by
  intro fuel
  induction fuel with
  | zero => intro low high h; rw [binarySearchLoop]; linarith
  | succ fuel ih =>
    intro low high h
    rw [binarySearchLoop]
    dsimp only
    split
    · by_cases hc : |calculateFutureValue ((low + high) / 2) y r - t| < 100
      · rw [if_pos hc]; linarith
      · rw [if_neg hc]
        split
        · exact ih _ _ (by linarith)
        · exact lt_trans (ih _ _ (by linarith)) (by linarith)
    · linarith

/-- At annual return −1200% every future value is 0 (the monthly factor
`1+r` vanishes). -/
theorem calculateFutureValue_neg1200 (s : ℚ) (y : ℕ) (hy : y ≠ 0) :
    calculateFutureValue s y (-1200) = 0 := by
  unfold calculateFutureValue
  dsimp only
  rw [if_neg (by norm_num)]
  have h12 : (1 : ℚ) + (-1200) / 100 / 12 = 0 := by norm_num
  rw [h12]
  ring

/-- Claim C4 counterexample: at target 2400, 1 year, annual return −1200%
(reachable: no caller validates the rate, and the probability analysis
feeds `expectedReturn − volatility`), the future value is constantly 0, so
the first Newton-Raphson iteration hits the near-zero-derivative `break`
with `iterations = 0 < 100`; the method then returns the current guess 200
directly, which is *not* the bisection result (that stays strictly below
200) — while still unconverged and with no error surfaced. -/
theorem newton_fallback_counterexample :
    newtonRaphsonMethod 2400 1 (-1200) = 200 ∧
    binarySearchMethod 2400 1 (-1200) < 200 ∧
    newtonRaphsonMethod 2400 1 (-1200) ≠ binarySearchMethod 2400 1 (-1200) ∧
    ¬ |calculateFutureValue (newtonRaphsonMethod 2400 1 (-1200)) 1 (-1200)
        - 2400| < 100 := by
  have hnr : newtonRaphsonMethod 2400 1 (-1200) = 200 := by
    unfold newtonRaphsonMethod
    dsimp only
    rw [show (100 : ℕ) = 99 + 1 from rfl, nrLoop]
    dsimp only
    rw [calculateFutureValue_neg1200 _ 1 one_ne_zero,
      calculateFutureValue_neg1200 _ 1 one_ne_zero]
    norm_num
  have hbs : binarySearchMethod 2400 1 (-1200) < 200 := by
    have h := binarySearchLoop_lt_high 2400 1 (-1200) 100 100 (2400 / 12)
      (by norm_num)
    unfold binarySearchMethod
    have h200 : (2400 : ℚ) / 12 = 200 := by norm_num
    rw [h200] at h ⊢
    exact h
  refine ⟨hnr, hbs, ?_, ?_⟩
  · rw [hnr]
    exact ne_of_gt hbs
  · rw [hnr, calculateFutureValue_neg1200 _ 1 one_ne_zero]
    norm_num

/-- Claim C4, amended: the bisection fallback is taken exactly on iteration
exhaustion, not on derivative underflow.  For every nonnegative return rate
the derivative never underflows, so the value returned by
`newtonRaphsonMethod` is either converged (within the absolute tolerance of
100) or is the result of the bisection search over `[100, target/12]`; no
error is surfaced either way (the method is total). -/
theorem newton_raphson_fallback (t : ℚ) (y : ℕ) (r : ℚ)
    (hy : 1 ≤ y) (hr : 0 ≤ r) :
    |calculateFutureValue (newtonRaphsonMethod t y r) y r - t| < 100 ∨
    newtonRaphsonMethod t y r = binarySearchMethod t y r := by
  unfold newtonRaphsonMethod
  dsimp only
  cases hout : (nrLoop t y r 100 (t / ((y : ℚ) * 12))).2 with
  | false =>
    rw [if_neg Bool.false_ne_true]
    exact Or.inl (nrLoop_false_converged t y r hy hr 100 _ hout)
  | true =>
    rw [if_pos rfl]
    exact Or.inr rfl

/-- Witness for the amended claim C4 at target 2400, 1 year, rate 0. -/
theorem newton_raphson_fallback_witness :
    |calculateFutureValue (newtonRaphsonMethod 2400 1 0) 1 0 - 2400| < 100 ∨
    newtonRaphsonMethod 2400 1 0 = binarySearchMethod 2400 1 0 :=
  newton_raphson_fallback 2400 1 0 (by decide) (by decide)

/-- At annual return 0 the future value is `s × months`. -/
theorem calculateFutureValue_zero_rate (s : ℚ) (y : ℕ) :
    calculateFutureValue s y 0 = s * (12 * y) := by
  unfold calculateFutureValue
  dsimp only
  rw [if_pos (by norm_num)]
  push_cast
  ring

/-- Claim C5 counterexample: target 1,000,000 over 1 year at 0% return.
Newton-Raphson converges exactly (FV of the guess equals the target), but
the *returned* `requiredSIP` is rounded up to the nearest 100 (83,400), whose
future value misses the target by 800 — far outside the 100-unit band — and
the result is not flagged: `success` is unconditionally `true`. -/
theorem goalseeker_roundtrip_counterexample :
    (calculateRequiredSIP 1000000 1 0 0 0).requiredSIP = 83400 ∧
    ¬ |calculateFutureValue (calculateRequiredSIP 1000000 1 0 0 0).requiredSIP 1 0
        - 1000000| < 100 ∧
    (calculateRequiredSIP 1000000 1 0 0 0).success = true := by
  have hnr : newtonRaphsonMethod 1000000 1 0 = 250000 / 3 := by
    unfold newtonRaphsonMethod
    dsimp only
    rw [show (100 : ℕ) = 99 + 1 from rfl, nrLoop]
    dsimp only
    rw [calculateFutureValue_zero_rate, calculateFutureValue_zero_rate]
    norm_num
  have hsip : (calculateRequiredSIP 1000000 1 0 0 0).requiredSIP = 83400 := by
    unfold calculateRequiredSIP
    dsimp only
    rw [if_neg (by norm_num : ¬(0 : ℚ) < 0), if_neg (by norm_num : ¬(0 : ℚ) < 0),
      hnr]
    have hceil : ⌈(250000 / 3 : ℚ) / 100⌉ = (834 : ℤ) := by
      rw [Int.ceil_eq_iff]
      constructor
      · norm_num
      · norm_num
    rw [hceil]
    norm_num
  refine ⟨hsip, ?_, rfl⟩
  rw [hsip, calculateFutureValue_zero_rate]
  norm_num

/-- Claim C5, amended: the *unrounded* solver output does round-trip — for
any positive target at least `100 × fvFactor` (so the floor at 100 never
binds), nonnegative rate, no step-up and no inflation, the future value of
`newtonRaphsonMethod`'s result is within 100 of the target; the `requiredSIP`
field additionally rounds that value up to the nearest 100 (which can leave
the band, see the counterexample), and no result is ever flagged
non-converged, `success` being constantly `true`. -/
theorem goalseeker_roundtrip_unrounded (t : ℚ) (y : ℕ) (r : ℚ)
    (hy : 1 ≤ y) (hr : 0 ≤ r) (ht : 100 * fvFactor y r ≤ t) :
    |calculateFutureValue (newtonRaphsonMethod t y r) y r - t| < 100 ∧
    (∀ (t' : ℚ) (y' : ℕ) (r' infl su : ℚ),
      (calculateRequiredSIP t' y' r' infl su).success = true) := by
  constructor
  · unfold newtonRaphsonMethod
    dsimp only
    have h := nrLoop_converges_of_large_target t y r hy hr ht 100
      (t / ((y : ℚ) * 12)) (by omega)
    rw [if_neg (by rw [h.1]; exact Bool.false_ne_true)]
    exact h.2
  · intro t' y' r' infl su
    rfl

set_option maxRecDepth 100000 in
/-- Witness for the amended claim C5 at target 1200, 1 year, rate 0. -/
theorem goalseeker_roundtrip_unrounded_witness :
    |calculateFutureValue (newtonRaphsonMethod 1200 1 0) 1 0 - 1200| < 100 ∧
    (∀ (t' : ℚ) (y' : ℕ) (r' infl su : ℚ),
      (calculateRequiredSIP t' y' r' infl su).success = true) :=
  goalseeker_roundtrip_unrounded 1200 1 0 (by decide) (by decide)
    (by with_unfolding_all decide)

end GoalSeekingSIPCalculator

/-! ## js/core/SIPCalculator.js -/

/-- `ReturnPeriod` from `js/core/DataModels.js` (SIP side). -/
structure ReturnPeriod where
  startYear : ℕ
  endYear : Option ℕ
  annualReturn : ℚ
deriving DecidableEq, Repr

/-- `ReturnPeriod.isActiveForYear`. -/
def ReturnPeriod.isActiveForYear (p : ReturnPeriod) (year : ℕ) : Bool :=
  decide (p.startYear ≤ year) &&
    (match p.endYear with
     | none => true
     | some e => decide (year ≤ e))

/-- `ReturnScenario` (the `name`d list of return periods); its
`getReturnForYear` returns the *first* active period's return, falling back
to the first period (or 0). -/
structure ReturnScenario where
  name : String
  periods : List ReturnPeriod
deriving DecidableEq, Repr

/-- `ReturnScenario.getReturnForYear`. -/
def ReturnScenario.getReturnForYear (s : ReturnScenario) (year : ℕ) : ℚ :=
  match s.periods.find? (fun p => p.isActiveForYear year) with
  | some p => p.annualReturn
  | none => ((s.periods.head?.map ReturnPeriod.annualReturn).getD 0)

/-- `StepUpSchedule` from `js/core/DataModels.js`. -/
structure StepUpSchedule where
  startYear : ℕ
  endYear : Option ℕ
  stepUpPercent : ℚ
deriving DecidableEq, Repr

/-- `SIPConfiguration` (the fields the projection loop reads; the scenario
map lookup of `calculate(scenarioName)` is resolved by passing the selected
`ReturnScenario` directly). -/
structure SIPConfiguration where
  monthlyAmount : ℚ
  durationYears : ℕ
  stepUpSchedules : List StepUpSchedule
  inflationRate : ℚ
deriving DecidableEq, Repr

namespace AdvancedSIPCalculator

/-- `AdvancedSIPCalculator.applySteUpSchedule` (source spelling): multiply by
the first step-up schedule whose `[startYear, endYear]` contains the year. -/
def applySteUpSchedule (schedules : List StepUpSchedule)
    (currentSIP : ℚ) (year : ℕ) : ℚ :=
  if schedules.isEmpty then currentSIP
  else
    match schedules.find? (fun s =>
        decide (s.startYear ≤ year) &&
          (match s.endYear with
           | none => true
           | some e => decide (year ≤ e))) with
    | some s => currentSIP * (1 + s.stepUpPercent / 100)
    | none => currentSIP

/-- What the `calculate` for-loop carries between months. -/
structure SIPLoopOut where
  balance : ℚ
  totalInvested : ℚ
  currentSIP : ℚ
deriving DecidableEq, Repr

/-- The month loop of `AdvancedSIPCalculator.calculate`: at each new year
boundary (`month > 1 ∧ (month−1) % 12 = 0`) apply the step-up, then invest
and grow `balance = (balance + sip) × (1 + monthlyReturn)`.  The sampled
reporting ledger and the inflation-deflated per-month column do not feed
back into the state and are not modelled. -/
def sipLoop (scenario : ReturnScenario) (cfg : SIPConfiguration) :
    ℕ → ℕ → ℚ → ℚ → ℚ → SIPLoopOut
  | 0, _, sip, bal, inv => ⟨bal, inv, sip⟩
  | k + 1, month, sip, bal, inv =>
    let year := (month + 11) / 12
    let sip1 :=
      if 1 < month ∧ (month - 1) % 12 = 0 then
        applySteUpSchedule cfg.stepUpSchedules sip year
      else sip
    let monthlyReturn := scenario.getReturnForYear year / 100 / 12
    sipLoop scenario cfg k (month + 1) sip1
      ((bal + sip1) * (1 + monthlyReturn)) (inv + sip1)

/-- The result object of `AdvancedSIPCalculator.calculate` (scalar fields;
`effectiveReturn` uses a fractional power and the sampled `schedule` is
reporting-only — neither is modelled). -/
structure SIPResult where
  success : Bool
  finalValue : ℚ
  totalInvested : ℚ
  wealthGain : ℚ
  realValue : ℚ
deriving DecidableEq, Repr

/-- `AdvancedSIPCalculator.calculate` for a selected scenario. -/
def calculate (scenario : ReturnScenario) (cfg : SIPConfiguration) : SIPResult :=
  let months := cfg.durationYears * 12
  let out := sipLoop scenario cfg months 1 cfg.monthlyAmount 0 0
  let realValue :=
    if 0 < cfg.inflationRate then
      out.balance / (1 + cfg.inflationRate / 100) ^ cfg.durationYears
    else out.balance
  { success := true
    finalValue := out.balance
    totalInvested := out.totalInvested
    wealthGain := out.balance - out.totalInvested
    realValue := realValue }

/-- With no step-up schedules the step-up application is the identity. -/
theorem applySteUpSchedule_nil (sip : ℚ) (year : ℕ) :
    applySteUpSchedule [] sip year = sip := rfl

theorem getReturnForYear_flat (name : String) (r : ℚ) (year : ℕ) (hy : 1 ≤ year) :
    ReturnScenario.getReturnForYear ⟨name, [⟨1, none, r⟩]⟩ year = r := by
  unfold ReturnScenario.getReturnForYear
  have hact : ReturnPeriod.isActiveForYear ⟨1, none, r⟩ year = true := by
    simp [ReturnPeriod.isActiveForYear, hy]
  simp [List.find?, hact]

/-- `Σ_{j=1}^{k} x^j`, the balance accumulated by the projection loop per
unit contribution. -/
def geomSum (x : ℚ) : ℕ → ℚ
  | 0 => 0
  | k + 1 => geomSum x k + x ^ (k + 1)

theorem geomSum_one (k : ℕ) : geomSum 1 k = k := by
  induction k with
  | zero => rfl
  | succ k ih => rw [geomSum, ih]; push_cast; ring

theorem geomSum_closed (x : ℚ) (hx : x ≠ 0) (k : ℕ) :
    geomSum (1 + x) k = ((1 + x) ^ k - 1) / x * (1 + x) := by
  induction k with
  | zero => simp [geomSum]
  | succ k ih =>
    rw [geomSum, ih]
    field_simp
    ring

theorem sipLoop_flat (name : String) (r : ℚ) (cfg : SIPConfiguration)
    (hsu : cfg.stepUpSchedules = []) :
    ∀ (k month : ℕ) (P bal inv : ℚ), 1 ≤ month →
      sipLoop ⟨name, [⟨1, none, r⟩]⟩ cfg k month P bal inv =
        ⟨bal * (1 + r / 100 / 12) ^ k + P * geomSum (1 + r / 100 / 12) k,
          inv + P * k, P⟩ := by
  intro k
  induction k with
  | zero =>
    intro month P bal inv _
    rw [sipLoop]
    simp [geomSum]
  | succ k ih =>
    intro month P bal inv hm
    rw [sipLoop]
    rw [hsu, applySteUpSchedule_nil, ite_self,
      getReturnForYear_flat name r _ (by omega),
      ih (month + 1) P _ _ (by omega)]
    simp only [SIPLoopOut.mk.injEq]
    refine ⟨?_, ?_, trivial⟩
    · rw [geomSum]
      ring
    · push_cast
      ring

/-- Claim C7: forward-projection cross-consistency.  For a flat return
scenario, no step-up and no inflation, the `finalValue` of the month-by-month
`AdvancedSIPCalculator.calculate` loop equals the closed-form future value
`P × [((1+r)^n − 1)/r] × (1+r)` used by
`GoalSeekingSIPCalculator.calculateFutureValue` — exactly, for every
contribution, duration and rate (in particular 15,000/month at 12% over 240
months). -/
theorem projection_matches_closed_form (name : String) (cfg : SIPConfiguration)
    (r : ℚ) (hsu : cfg.stepUpSchedules = []) (hinfl : cfg.inflationRate = 0) :
    (calculate ⟨name, [⟨1, none, r⟩]⟩ cfg).finalValue =
      GoalSeekingSIPCalculator.calculateFutureValue cfg.monthlyAmount
        cfg.durationYears r := by
  unfold calculate
  dsimp only
  rw [sipLoop_flat name r cfg hsu _ 1 _ _ _ le_rfl]
  unfold GoalSeekingSIPCalculator.calculateFutureValue
  dsimp only
  by_cases hz : (r / 100 / 12 : ℚ) = 0
  · rw [if_pos hz, hz, show (1 : ℚ) + 0 = 1 by norm_num, geomSum_one]
    push_cast
    ring
  · rw [if_neg hz, geomSum_closed _ hz]
    ring

/-- Witness for claim C7 at the spec's concrete scenario: 15,000/month, 12%
annual return, 20 years, no step-up, no inflation. -/
theorem projection_matches_closed_form_witness :
    (calculate ⟨"realistic", [⟨1, none, 12⟩]⟩
        ⟨15000, 20, [], 0⟩).finalValue =
      GoalSeekingSIPCalculator.calculateFutureValue 15000 20 12 :=
  projection_matches_closed_form "realistic" ⟨15000, 20, [], 0⟩ 12 rfl rfl

end AdvancedSIPCalculator

/-! ## WithdrawalCalculator (js/core/SIPCalculator.js) -/

namespace WithdrawalCalculator

/-- What the withdrawal for-loop carries (plus the loop-exit balance). -/
structure WLoopOut where
  balance : ℚ
  withdrawal : ℚ
  totalWithdrawn : ℚ
  depletedAt : Option ℕ
deriving DecidableEq, Repr

/-- The annual inflation adjustment of the withdrawal
(`if (inflationAdjusted && month > 1 && (month-1) % 12 === 0)`). -/
def adjustWithdrawal (inflationAdjusted : Bool) (inflationRate : ℚ)
    (month : ℕ) (w : ℚ) : ℚ :=
  if inflationAdjusted = true ∧ 1 < month ∧ (month - 1) % 12 = 0 then
    w * (1 + inflationRate / 100)
  else w

/-- The growth of the remaining corpus (`if (balance > 0) balance *= 1+r`). -/
def growBalance (monthlyReturn bal1 : ℚ) : ℚ :=
  if 0 < bal1 then bal1 * (1 + monthlyReturn) else bal1

/-- The month loop of `WithdrawalCalculator.calculate`: inflation-grow the
withdrawal at year boundaries, stop with `depletedAt = month` when the
balance cannot cover the withdrawal (nothing is paid out), otherwise
withdraw, grow any positive remainder, and stop when the balance hits 0. -/
def wLoop (monthlyReturn inflationRate : ℚ) (inflationAdjusted : Bool) :
    ℕ → ℕ → ℚ → ℚ → ℚ → WLoopOut
  | 0, _, w, bal, tw => ⟨bal, w, tw, none⟩
  | k + 1, month, w, bal, tw =>
    let w1 := adjustWithdrawal inflationAdjusted inflationRate month w
    if bal < w1 then ⟨bal, w1, tw, some month⟩
    else
      let bal2 := growBalance monthlyReturn (bal - w1)
      if bal2 ≤ 0 then ⟨bal2, w1, tw + w1, some month⟩
      else wLoop monthlyReturn inflationRate inflationAdjusted k (month + 1) w1 bal2 (tw + w1)

/-- `growBalance` is monotone for nonnegative monthly returns. -/
theorem growBalance_mono (mr a b : ℚ) (hmr : 0 ≤ mr) (hab : a ≤ b) :
    growBalance mr a ≤ growBalance mr b := by
  unfold growBalance
  split
  · split
    · nlinarith
    · rename_i ha hb'
      exact absurd (by linarith : (0:ℚ) < b) hb'
  · split
    · rename_i ha hb'
      nlinarith
    · exact hab

/-- The result object of `WithdrawalCalculator.calculate` (scalar fields;
the sampled `schedule` is reporting-only and not modelled). -/
structure WithdrawalResult where
  success : Bool
  initialCorpus : ℚ
  monthlyWithdrawal : ℚ
  totalWithdrawn : ℚ
  remainingCorpus : ℚ
  depletedAt : Option ℕ
  lastsThroughPlan : Bool
deriving DecidableEq, Repr

/-- `WithdrawalCalculator.calculate`. -/
def calculate (initialCorpus monthlyWithdrawal : ℚ) (years : ℕ)
    (annualReturn inflationRate : ℚ) (inflationAdjusted : Bool) :
    WithdrawalResult :=
  let months := years * 12
  let monthlyReturn := annualReturn / 100 / 12
  let out := wLoop monthlyReturn inflationRate inflationAdjusted months 1
    monthlyWithdrawal initialCorpus 0
  { success := true
    initialCorpus := initialCorpus
    monthlyWithdrawal := monthlyWithdrawal
    totalWithdrawn := out.totalWithdrawn
    remainingCorpus := max out.balance 0
    depletedAt := out.depletedAt
    lastsThroughPlan := decide (out.depletedAt = none) }

/-- Any depletion month the loop reports is at least the month it started
from. -/
theorem wLoop_depleted_ge (mr infl : ℚ) (adj : Bool) :
    ∀ (k month : ℕ) (w bal tw : ℚ) (m : ℕ),
      (wLoop mr infl adj k month w bal tw).depletedAt = some m → month ≤ m := by
  intro k
  induction k with
  | zero =>
    intro month w bal tw m h
    rw [wLoop] at h
    simp at h
  | succ k ih =>
    intro month w bal tw m h
    rw [wLoop] at h
    dsimp only at h
    split at h
    · simp at h
      omega
    · split at h
      · simp at h
        omega
      · exact le_trans (Nat.le_succ month) (ih _ _ _ _ _ h)

/-- Pointwise monotonicity of one withdrawal run in the starting balance:
if the larger run depletes at month `m2`, the smaller run depletes at some
month `m1 ≤ m2` (the withdrawal stream is the same for both). -/
theorem wLoop_mono (mr infl : ℚ) (adj : Bool) (hmr : 0 ≤ mr) :
    ∀ (k month : ℕ) (w b1 b2 tw1 tw2 : ℚ), b1 ≤ b2 →
      ∀ m2, (wLoop mr infl adj k month w b2 tw2).depletedAt = some m2 →
        ∃ m1, (wLoop mr infl adj k month w b1 tw1).depletedAt = some m1 ∧
          m1 ≤ m2 := by
  intro k
  induction k with
  | zero =>
    intro month w b1 b2 tw1 tw2 _ m2 h2
    rw [wLoop] at h2
    simp at h2
  | succ k ih =>
    intro month w b1 b2 tw1 tw2 hb m2 h2
    have hge := wLoop_depleted_ge mr infl adj (k + 1) month w b2 tw2 m2 h2
    rw [wLoop] at h2 ⊢
    dsimp only at h2 ⊢
    set w1 := adjustWithdrawal adj infl month w with hw1
    by_cases h1 : b1 < w1
    · rw [if_pos h1]
      exact ⟨month, rfl, hge⟩
    · rw [if_neg h1]
      have h2b : ¬ b2 < w1 := by linarith
      rw [if_neg h2b] at h2
      set c1 := growBalance mr (b1 - w1) with hc1
      set c2 := growBalance mr (b2 - w1) with hc2
      have hc : c1 ≤ c2 := growBalance_mono mr (b1 - w1) (b2 - w1) hmr (by linarith)
      by_cases hd2 : c2 ≤ 0
      · rw [if_pos hd2] at h2
        rw [if_pos (le_trans hc hd2)]
        simp only [Option.some.injEq] at h2
        exact ⟨month, rfl, by omega⟩
      · rw [if_neg hd2] at h2
        by_cases hd1 : c1 ≤ 0
        · rw [if_pos hd1]
          refine ⟨month, rfl, ?_⟩
          exact le_trans (Nat.le_succ month)
            (wLoop_depleted_ge mr infl adj k (month + 1) w1 c2 (tw2 + w1) m2 h2)
        · rw [if_neg hd1]
          exact ih (month + 1) w1 c1 c2 (tw1 + w1) (tw2 + w1) hc m2 h2

/-- Claim C8: withdrawal depletion monotonicity.  With the withdrawal
amount, duration, (nonnegative) return rate, inflation rate and
inflation-adjustment flag fixed, a larger initial corpus never depletes
earlier: whenever the larger corpus depletes at month `m2` the smaller
depletes at some `m1 ≤ m2`, and a corpus that survives the full plan still
survives after being enlarged. -/
theorem withdrawal_depletion_monotonic (c1 c2 w : ℚ) (years : ℕ)
    (annualReturn inflationRate : ℚ) (adj : Bool)
    (hr : 0 ≤ annualReturn) (hc : c1 ≤ c2) :
    (∀ m2, (calculate c2 w years annualReturn inflationRate adj).depletedAt =
          some m2 →
        ∃ m1, (calculate c1 w years annualReturn inflationRate adj).depletedAt =
          some m1 ∧ m1 ≤ m2) ∧
    ((calculate c1 w years annualReturn inflationRate adj).lastsThroughPlan =
        true →
      (calculate c2 w years annualReturn inflationRate adj).lastsThroughPlan =
        true) := by
  have hmr : (0:ℚ) ≤ annualReturn / 100 / 12 := by positivity
  have hmain : ∀ m2,
      (wLoop (annualReturn / 100 / 12) inflationRate adj (years * 12) 1 w c2 0).depletedAt
        = some m2 →
      ∃ m1, (wLoop (annualReturn / 100 / 12) inflationRate adj (years * 12) 1 w c1 0).depletedAt
        = some m1 ∧ m1 ≤ m2 :=
    fun m2 h2 => wLoop_mono (annualReturn / 100 / 12) inflationRate adj hmr
      (years * 12) 1 w c1 c2 0 0 hc m2 h2
  constructor
  · intro m2 h2
    exact hmain m2 h2
  · intro h1
    unfold calculate at h1 ⊢
    dsimp only at h1 ⊢
    rw [decide_eq_true_iff] at h1 ⊢
    cases hh : (wLoop (annualReturn / 100 / 12) inflationRate adj (years * 12) 1 w c2 0).depletedAt with
    | none => rfl
    | some m2 =>
      obtain ⟨m1, hm1, _⟩ := hmain m2 hh
      rw [hm1] at h1
      cases h1

/-- Witness for claim C8: corpus 100 vs 200 at withdrawal 50/month over one
year with zero return — the smaller depletes at month 2, the larger at
month 4. -/
theorem withdrawal_depletion_monotonic_witness :
    (∀ m2, (calculate 200 50 1 0 0 true).depletedAt = some m2 →
        ∃ m1, (calculate 100 50 1 0 0 true).depletedAt = some m1 ∧ m1 ≤ m2) ∧
    ((calculate 100 50 1 0 0 true).lastsThroughPlan = true →
      (calculate 200 50 1 0 0 true).lastsThroughPlan = true) :=
  withdrawal_depletion_monotonic 100 200 50 1 0 0 true (by decide) (by decide)

end WithdrawalCalculator

/-! ## v2/js/core/EMICalculator.js — `calculateTenure` (claim C9)

`calculateTenure` computes `ceil(-log(1 - P*r/EMI) / log(1+r))` with
`Math.log`, so its embedding lives over `ℝ` (`Real.log`), with the guard
arithmetic on the `ℚ` inputs. -/

namespace EMICalculator

/-- `roundCurrency` from `v2/js/utils/validators.js`:
`Math.round(val * 100) / 100` (`Math.round x = ⌊x + 1/2⌋`). -/
noncomputable def roundCurrency (x : ℝ) : ℝ :=
  ((⌊x * 100 + 1/2⌋ : ℤ) : ℝ) / 100

/-- The `{tenureMonths, totalPayment, totalInterest}` object returned by
`calculateTenure`. -/
structure TenureResult where
  tenureMonths : ℤ
  totalPayment : ℝ
  totalInterest : ℝ

/-- `EMICalculator.calculateTenure`: input guards throw, the zero-rate
branch divides directly, and at a positive rate a payment not exceeding the
interest-only amount `P*r` throws the distinct degeneracy error before the
logarithm is evaluated. -/
noncomputable def calculateTenure (principal emi annualRate : ℚ) :
    Except String TenureResult :=
  if principal ≤ 0 then Except.error "Principal must be positive"
  else if emi ≤ 0 then Except.error "EMI must be positive"
  else if annualRate < 0 then Except.error "Rate cannot be negative"
  else if annualRate = 0 then
    let months : ℤ := ⌈(principal / emi : ℚ)⌉
    Except.ok ⟨months, roundCurrency ((emi : ℝ) * (months : ℝ)),
      roundCurrency ((emi : ℝ) * (months : ℝ) - (principal : ℝ))⟩
  else
    let r : ℚ := annualRate / 100 / 12
    if emi ≤ principal * r then
      Except.error "EMI is too low to repay the loan at this rate"
    else
      let months : ℤ :=
        ⌈-Real.log (1 - ((principal * r / emi : ℚ) : ℝ)) /
          Real.log (1 + (r : ℝ))⌉
      Except.ok ⟨months, roundCurrency ((emi : ℝ) * (months : ℝ)),
        roundCurrency ((emi : ℝ) * (months : ℝ) - (principal : ℝ))⟩

/-- Claim C9: arithmetic-degeneracy handling in tenure-from-payment.  For
positive principal, payment and rate: a payment at or below the
interest-only amount `P × r` is rejected with the distinct named error
`"EMI is too low to repay the loan at this rate"`, and any payment strictly
above it produces a tenure result without error. -/
theorem tenure_degeneracy_error (P emi rate : ℚ)
    (hP : 0 < P) (he : 0 < emi) (hr : 0 < rate) :
    (emi ≤ P * (rate / 100 / 12) →
      calculateTenure P emi rate =
        Except.error "EMI is too low to repay the loan at this rate") ∧
    (P * (rate / 100 / 12) < emi →
      ∃ out : TenureResult, calculateTenure P emi rate = Except.ok out) := by
  constructor
  · intro h
    unfold calculateTenure
    rw [if_neg (by linarith), if_neg (by linarith),
      if_neg (by linarith), if_neg (ne_of_gt hr), if_pos h]
  · intro h
    unfold calculateTenure
    rw [if_neg (by linarith), if_neg (by linarith),
      if_neg (by linarith), if_neg (ne_of_gt hr), if_neg (not_le.mpr h)]
    exact ⟨_, rfl⟩

/-- Witness for claim C9: at 12% on principal 1200 the interest-only amount
is 12/month — a 10/month payment is rejected with the named error and a
100/month payment yields a tenure result. -/
theorem tenure_degeneracy_error_witness :
    (calculateTenure 1200 10 12 =
      Except.error "EMI is too low to repay the loan at this rate") ∧
    (∃ out : TenureResult, calculateTenure 1200 100 12 = Except.ok out) :=
  ⟨(tenure_degeneracy_error 1200 10 12 (by decide) (by decide) (by decide)).1
      (by with_unfolding_all decide),
   (tenure_degeneracy_error 1200 100 12 (by decide) (by decide) (by decide)).2
      (by with_unfolding_all decide)⟩

end EMICalculator

end FinPlan
